import Mathlib

/-
Shallow embedding of the zxs Z80 CPU emulator core (src/z80.c) and of the
serial-port auto-detection routine of the system shell, together with proofs
about them.

Conventions of the embedding:
  * machine integers are Nat; every assignment into a C `uint8_t` field or
    variable carries an explicit `% 256`, every assignment into a `uint16_t`
    an explicit `% 65536`, and the 64-bit T-state counter a `% 2^64`,
    mirroring the C storage types;
  * C unsigned subtraction `x - y` (width w) is written `(x + 2^w - y) % 2^w`;
  * C's int-complement `~x`, which in the source is always immediately
    masked down to the low 8 (resp. 16) bits by the surrounding expression,
    is written `x ^^^ 0xFF` (resp. `x ^^^ 0xFFFF`);
  * memory is a function `Nat → Nat`; the host read callback of the
    canonical shells returns `mem (addr % 65536) % 256`, the write callback
    stores the byte back into the array; the I/O input callback is a fixed
    function of the port; I/O output has no effect on the machine state
    (the canonical shells' devices never write into CPU-visible state).
-/

namespace Z80

abbrev Mem := Nat → Nat

/-- CPU state of `struct z80` (src/z80.h) together with the 64 KiB memory
array owned by the host shell. -/
structure Mach where
  a : Nat := 0
  f : Nat := 0
  b : Nat := 0
  c : Nat := 0
  d : Nat := 0
  e : Nat := 0
  h : Nat := 0
  l : Nat := 0
  a' : Nat := 0
  f' : Nat := 0
  b' : Nat := 0
  c' : Nat := 0
  d' : Nat := 0
  e' : Nat := 0
  h' : Nat := 0
  l' : Nat := 0
  ix : Nat := 0
  iy : Nat := 0
  sp : Nat := 0
  pc : Nat := 0
  i : Nat := 0
  r : Nat := 0
  iff1 : Nat := 0
  iff2 : Nat := 0
  im : Nat := 0
  halted : Nat := 0
  eiDelay : Nat := 0
  clocks : Nat := 0
  mem : Mem := fun _ => 0

/-- Flag bit constants from z80.h. -/
def Z80_SF : Nat := 0x80
def Z80_ZF : Nat := 0x40
def Z80_YF : Nat := 0x20
def Z80_HF : Nat := 0x10
def Z80_XF : Nat := 0x08
def Z80_PF : Nat := 0x04
def Z80_NF : Nat := 0x02
def Z80_CF : Nat := 0x01

/-- RB macro: read a byte through the memory callback (64 KiB array). -/
def rb (mem : Mem) (addr : Nat) : Nat := mem (addr % 65536) % 256

/-- Memory array update performed by the write callback. -/
def mupd (mem : Mem) (addr v : Nat) : Mem :=
  fun x => if x = addr % 65536 then v % 256 else mem x

/-- WB macro. -/
def wb (m : Mach) (addr v : Nat) : Mach := { m with mem := mupd m.mem addr v }

/-- RW macro: little-endian 16-bit read. -/
def rw (mem : Mem) (addr : Nat) : Nat :=
  rb mem addr ||| (rb mem (addr + 1)) <<< 8

/-- WW macro: little-endian 16-bit write. -/
def ww (m : Mach) (addr v : Nat) : Mach :=
  wb (wb m addr (v % 256)) (addr + 1) ((v >>> 8) % 256)

/-- I/O input through the host callback (uint16 port, uint8 result). -/
def rio (io : Mem) (port : Nat) : Nat := io (port % 65536) % 256

/-- FETCH macro: read the byte at PC, post-increment PC. -/
def fetch (m : Mach) : Mach × Nat :=
  ({ m with pc := (m.pc + 1) % 65536 }, rb m.mem m.pc)

/-- fetch16: two FETCHes, little-endian. -/
def fetch16 (m : Mach) : Mach × Nat :=
  let p1 := fetch m
  let p2 := fetch p1.1
  (p2.1, p1.2 ||| p2.2 <<< 8)

/-- AF() register pair accessor. -/
def getAF (m : Mach) : Nat := ((m.a <<< 8) % 65536) ||| m.f

/-- BC() register pair accessor. -/
def getBC (m : Mach) : Nat := ((m.b <<< 8) % 65536) ||| m.c

/-- DE() register pair accessor. -/
def getDE (m : Mach) : Nat := ((m.d <<< 8) % 65536) ||| m.e

/-- HL() register pair accessor. -/
def getHL (m : Mach) : Nat := ((m.h <<< 8) % 65536) ||| m.l

/-- SET_AF macro. -/
def setAF (m : Mach) (v : Nat) : Mach :=
  { m with a := (v >>> 8) % 256, f := v &&& 0xFF }

/-- SET_BC macro. -/
def setBC (m : Mach) (v : Nat) : Mach :=
  { m with b := (v >>> 8) % 256, c := v &&& 0xFF }

/-- SET_DE macro. -/
def setDE (m : Mach) (v : Nat) : Mach :=
  { m with d := (v >>> 8) % 256, e := v &&& 0xFF }

/-- SET_HL macro. -/
def setHL (m : Mach) (v : Nat) : Mach :=
  { m with h := (v >>> 8) % 256, l := v &&& 0xFF }

/-- PUSH macro: sp -= 2 (uint16 wrap), then WW at the new sp. -/
def push (m : Mach) (v : Nat) : Mach :=
  let m1 : Mach := { m with sp := (m.sp + 65534) % 65536 }
  ww m1 m1.sp v

/-- POP macro: sp += 2, value read at sp - 2 (uint16 wrap). -/
def pop (m : Mach) : Mach × Nat :=
  let m1 : Mach := { m with sp := (m.sp + 2) % 65536 }
  (m1, rw m1.mem ((m1.sp + 65534) % 65536))

/-- INC_R macro: increment the low 7 bits of R, preserve bit 7. -/
def incR (m : Mach) : Mach :=
  { m with r := (m.r &&& 0x80) ||| ((m.r + 1) &&& 0x7F) }

/-- Xor of the 8 low bits of i, as computed by the parity-table loop. -/
def parityFold (i : Nat) : Nat :=
  (List.range 8).foldl (fun p bbit => p ^^^ ((i >>> bbit) &&& 1)) 0

/-- parity table: Z80_PF when even parity, 0 otherwise (table indexed by a
byte, hence the mask). -/
def parityTab (idx : Nat) : Nat :=
  let i := idx % 256
  if parityFold i = 0 then Z80_PF else 0

/-- sz53p table: S, Z, Y, X and parity flags of a result byte. -/
def sz53p (idx : Nat) : Nat :=
  let i := idx % 256
  (i &&& (Z80_SF ||| Z80_YF ||| Z80_XF)) ||| parityTab i |||
    (if i = 0 then Z80_ZF else 0)

/-- alu_add8. -/
def alu_add8 (m : Mach) (v0 : Nat) : Mach :=
  let val := v0 % 256
  let r := (m.a + val) % 65536
  let halfr := ((m.a &&& 0x0F) + (val &&& 0x0F)) % 256
  { m with
    f := sz53p (r &&& 0xFF) ||| (halfr &&& Z80_HF) ||| ((r >>> 8) &&& Z80_CF)
         ||| ((((m.a ^^^ (val ^^^ 0xFF)) &&& (m.a ^^^ r)) >>> 5) &&& Z80_PF),
    a := r &&& 0xFF }

/-- alu_adc8. -/
def alu_adc8 (m : Mach) (v0 : Nat) : Mach :=
  let val := v0 % 256
  let cin := m.f &&& Z80_CF
  let r := (m.a + val + cin) % 65536
  let halfr := ((m.a &&& 0x0F) + (val &&& 0x0F) + cin) % 256
  { m with
    f := sz53p (r &&& 0xFF) ||| (halfr &&& Z80_HF) ||| ((r >>> 8) &&& Z80_CF)
         ||| ((((m.a ^^^ (val ^^^ 0xFF)) &&& (m.a ^^^ r)) >>> 5) &&& Z80_PF),
    a := r &&& 0xFF }

/-- alu_sub8. -/
def alu_sub8 (m : Mach) (v0 : Nat) : Mach :=
  let val := v0 % 256
  let r := (m.a + 65536 - val) % 65536
  let halfr := ((m.a &&& 0x0F) + 256 - (val &&& 0x0F)) % 256
  { m with
    f := sz53p (r &&& 0xFF) ||| Z80_NF ||| (halfr &&& Z80_HF)
         ||| ((r >>> 8) &&& Z80_CF)
         ||| ((((m.a ^^^ val) &&& (m.a ^^^ r)) >>> 5) &&& Z80_PF),
    a := r &&& 0xFF }

/-- alu_sbc8. -/
def alu_sbc8 (m : Mach) (v0 : Nat) : Mach :=
  let val := v0 % 256
  let cin := m.f &&& Z80_CF
  let r := (m.a + 65536 - val - cin) % 65536
  let halfr := ((m.a &&& 0x0F) + 256 - (val &&& 0x0F) - cin) % 256
  { m with
    f := sz53p (r &&& 0xFF) ||| Z80_NF ||| (halfr &&& Z80_HF)
         ||| ((r >>> 8) &&& Z80_CF)
         ||| ((((m.a ^^^ val) &&& (m.a ^^^ r)) >>> 5) &&& Z80_PF),
    a := r &&& 0xFF }

/-- alu_and. -/
def alu_and (m : Mach) (v0 : Nat) : Mach :=
  let val := v0 % 256
  let a := (m.a &&& val) % 256
  { m with a := a, f := sz53p a ||| Z80_HF }

/-- alu_xor. -/
def alu_xor (m : Mach) (v0 : Nat) : Mach :=
  let val := v0 % 256
  let a := (m.a ^^^ val) % 256
  { m with a := a, f := sz53p a }

/-- alu_or. -/
def alu_or (m : Mach) (v0 : Nat) : Mach :=
  let val := v0 % 256
  let a := (m.a ||| val) % 256
  { m with a := a, f := sz53p a }

/-- alu_cp: compare; the undocumented Y/X flags are taken from the operand,
not from the result. -/
def alu_cp (m : Mach) (v0 : Nat) : Mach :=
  let val := v0 % 256
  let r := (m.a + 65536 - val) % 65536
  let halfr := ((m.a &&& 0x0F) + 256 - (val &&& 0x0F)) % 256
  { m with
    f := (sz53p (r &&& 0xFF) &&& 0xD7)
         ||| (val &&& (Z80_YF ||| Z80_XF))
         ||| Z80_NF ||| (halfr &&& Z80_HF)
         ||| ((r >>> 8) &&& Z80_CF)
         ||| ((((m.a ^^^ val) &&& (m.a ^^^ r)) >>> 5) &&& Z80_PF) }

/-- alu_inc8: returns the updated machine and the incremented byte. -/
def alu_inc8 (m : Mach) (v0 : Nat) : Mach × Nat :=
  let val := v0 % 256
  let r := (val + 1) % 256
  ({ m with
     f := (m.f &&& Z80_CF) ||| sz53p r
          ||| (if val &&& 0x0F = 0x0F then Z80_HF else 0)
          ||| (if val = 0x7F then Z80_PF else 0) }, r)

/-- alu_dec8: returns the updated machine and the decremented byte. -/
def alu_dec8 (m : Mach) (v0 : Nat) : Mach × Nat :=
  let val := v0 % 256
  let r := (val + 255) % 256
  ({ m with
     f := (m.f &&& Z80_CF) ||| sz53p r ||| Z80_NF
          ||| (if val &&& 0x0F = 0x00 then Z80_HF else 0)
          ||| (if val = 0x80 then Z80_PF else 0) }, r)

/-- alu_add16: 16-bit ADD into a destination; returns machine and new value
of the destination. -/
def alu_add16 (m : Mach) (dst0 v0 : Nat) : Mach × Nat :=
  let dest := dst0 % 65536
  let val := v0 % 65536
  let r := dest + val
  let halfr := ((dest &&& 0x0FFF) + (val &&& 0x0FFF)) % 65536
  ({ m with
     f := (m.f &&& (Z80_SF ||| Z80_ZF ||| Z80_PF))
          ||| ((r >>> 16) &&& Z80_CF)
          ||| ((halfr >>> 8) &&& Z80_HF)
          ||| ((r >>> 8) &&& (Z80_YF ||| Z80_XF)) }, r &&& 0xFFFF)

/-- alu_adc16. -/
def alu_adc16 (m : Mach) (v0 : Nat) : Mach :=
  let val := v0 % 65536
  let cin := m.f &&& Z80_CF
  let hl := getHL m
  let r := hl + val + cin
  let halfr := ((hl &&& 0x0FFF) + (val &&& 0x0FFF) + cin) % 65536
  let m1 : Mach :=
    { m with
      f := ((r >>> 8) &&& (Z80_SF ||| Z80_YF ||| Z80_XF))
           ||| (if r &&& 0xFFFF = 0 then Z80_ZF else 0)
           ||| ((halfr >>> 8) &&& Z80_HF)
           ||| ((r >>> 16) &&& Z80_CF)
           ||| ((((hl ^^^ (val ^^^ 0xFFFF)) &&& (hl ^^^ r)) >>> 13) &&& Z80_PF) }
  setHL m1 (r &&& 0xFFFF)

/-- alu_sbc16. -/
def alu_sbc16 (m : Mach) (v0 : Nat) : Mach :=
  let val := v0 % 65536
  let cin := m.f &&& Z80_CF
  let hl := getHL m
  let r := (hl + 4294967296 - val - cin) % 4294967296
  let halfr := ((hl &&& 0x0FFF) + 65536 - (val &&& 0x0FFF) - cin) % 65536
  let m1 : Mach :=
    { m with
      f := ((r >>> 8) &&& (Z80_SF ||| Z80_YF ||| Z80_XF))
           ||| (if r &&& 0xFFFF = 0 then Z80_ZF else 0)
           ||| ((halfr >>> 8) &&& Z80_HF)
           ||| Z80_NF
           ||| ((r >>> 16) &&& Z80_CF)
           ||| ((((hl ^^^ val) &&& (hl ^^^ r)) >>> 13) &&& Z80_PF) }
  setHL m1 (r &&& 0xFFFF)

/-- rot_rlc. -/
def rot_rlc (m : Mach) (v0 : Nat) : Mach × Nat :=
  let val := v0 % 256
  let cbit := val >>> 7
  let r := ((val <<< 1) ||| cbit) % 256
  ({ m with f := sz53p r ||| cbit }, r)

/-- rot_rrc. -/
def rot_rrc (m : Mach) (v0 : Nat) : Mach × Nat :=
  let val := v0 % 256
  let cbit := val &&& 1
  let r := ((val >>> 1) ||| (cbit <<< 7)) % 256
  ({ m with f := sz53p r ||| cbit }, r)

/-- rot_rl. -/
def rot_rl (m : Mach) (v0 : Nat) : Mach × Nat :=
  let val := v0 % 256
  let cbit := val >>> 7
  let r := ((val <<< 1) ||| (m.f &&& Z80_CF)) % 256
  ({ m with f := sz53p r ||| cbit }, r)

/-- rot_rr. -/
def rot_rr (m : Mach) (v0 : Nat) : Mach × Nat :=
  let val := v0 % 256
  let cbit := val &&& 1
  let r := ((val >>> 1) ||| ((m.f &&& Z80_CF) <<< 7)) % 256
  ({ m with f := sz53p r ||| cbit }, r)

/-- rot_sla. -/
def rot_sla (m : Mach) (v0 : Nat) : Mach × Nat :=
  let val := v0 % 256
  let cbit := val >>> 7
  let r := (val <<< 1) % 256
  ({ m with f := sz53p r ||| cbit }, r)

/-- rot_sra. -/
def rot_sra (m : Mach) (v0 : Nat) : Mach × Nat :=
  let val := v0 % 256
  let cbit := val &&& 1
  let r := ((val >>> 1) ||| (val &&& 0x80)) % 256
  ({ m with f := sz53p r ||| cbit }, r)

/-- rot_sll (undocumented: shifts left and sets bit 0). -/
def rot_sll (m : Mach) (v0 : Nat) : Mach × Nat :=
  let val := v0 % 256
  let cbit := val >>> 7
  let r := ((val <<< 1) ||| 1) % 256
  ({ m with f := sz53p r ||| cbit }, r)

/-- rot_srl. -/
def rot_srl (m : Mach) (v0 : Nat) : Mach × Nat :=
  let val := v0 % 256
  let cbit := val &&& 1
  let r := (val >>> 1) % 256
  ({ m with f := sz53p r ||| cbit }, r)

/-- op_bit. -/
def op_bit (m : Mach) (bitIdx v0 : Nat) : Mach :=
  let val := v0 % 256
  let r := val &&& (1 <<< bitIdx)
  { m with
    f := (m.f &&& Z80_CF) ||| Z80_HF
         ||| (if r ≠ 0 then r &&& Z80_SF else Z80_ZF ||| Z80_PF)
         ||| (val &&& (Z80_YF ||| Z80_XF)) }

/-- op_bit_idx: BIT on (IX/IY+d); Y/X flags come from the high byte of the
address. -/
def op_bit_idx (m : Mach) (bitIdx v0 addrhi0 : Nat) : Mach :=
  let val := v0 % 256
  let addrhi := addrhi0 % 256
  let r := val &&& (1 <<< bitIdx)
  { m with
    f := (m.f &&& Z80_CF) ||| Z80_HF
         ||| (if r ≠ 0 then r &&& Z80_SF else Z80_ZF ||| Z80_PF)
         ||| (addrhi &&& (Z80_YF ||| Z80_XF)) }

/-- eval_cc. -/
def eval_cc (m : Mach) (cc : Nat) : Bool :=
  if cc = 0 then m.f &&& Z80_ZF = 0
  else if cc = 1 then ¬ (m.f &&& Z80_ZF = 0)
  else if cc = 2 then m.f &&& Z80_CF = 0
  else if cc = 3 then ¬ (m.f &&& Z80_CF = 0)
  else if cc = 4 then m.f &&& Z80_PF = 0
  else if cc = 5 then ¬ (m.f &&& Z80_PF = 0)
  else if cc = 6 then m.f &&& Z80_SF = 0
  else if cc = 7 then ¬ (m.f &&& Z80_SF = 0)
  else false

/-- get_reg: r[i] with (HL) as index 6. -/
def get_reg (m : Mach) (idx : Nat) : Nat :=
  if idx = 0 then m.b
  else if idx = 1 then m.c
  else if idx = 2 then m.d
  else if idx = 3 then m.e
  else if idx = 4 then m.h
  else if idx = 5 then m.l
  else if idx = 6 then rb m.mem (getHL m)
  else if idx = 7 then m.a
  else 0

/-- set_reg. -/
def set_reg (m : Mach) (idx v0 : Nat) : Mach :=
  let val := v0 % 256
  if idx = 0 then { m with b := val }
  else if idx = 1 then { m with c := val }
  else if idx = 2 then { m with d := val }
  else if idx = 3 then { m with e := val }
  else if idx = 4 then { m with h := val }
  else if idx = 5 then { m with l := val }
  else if idx = 6 then wb m (getHL m) val
  else if idx = 7 then { m with a := val }
  else m

/-- get_rp: rp[i] = BC, DE, HL, SP. -/
def get_rp (m : Mach) (idx : Nat) : Nat :=
  if idx = 0 then getBC m
  else if idx = 1 then getDE m
  else if idx = 2 then getHL m
  else if idx = 3 then m.sp
  else 0

/-- set_rp. -/
def set_rp (m : Mach) (idx v0 : Nat) : Mach :=
  let val := v0 % 65536
  if idx = 0 then setBC m val
  else if idx = 1 then setDE m val
  else if idx = 2 then setHL m val
  else if idx = 3 then { m with sp := val }
  else m

/-- get_rp2: rp2[i] = BC, DE, HL, AF. -/
def get_rp2 (m : Mach) (idx : Nat) : Nat :=
  if idx = 0 then getBC m
  else if idx = 1 then getDE m
  else if idx = 2 then getHL m
  else if idx = 3 then getAF m
  else 0

/-- set_rp2. -/
def set_rp2 (m : Mach) (idx v0 : Nat) : Mach :=
  let val := v0 % 65536
  if idx = 0 then setBC m val
  else if idx = 1 then setDE m val
  else if idx = 2 then setHL m val
  else if idx = 3 then setAF m val
  else m

/-- get_reg_idx: register read with IX/IY half substitution for H/L. -/
def get_reg_idx (m : Mach) (idx ixiy : Nat) : Nat :=
  if idx = 0 then m.b
  else if idx = 1 then m.c
  else if idx = 2 then m.d
  else if idx = 3 then m.e
  else if idx = 4 then (ixiy >>> 8) &&& 0xFF
  else if idx = 5 then ixiy &&& 0xFF
  else if idx = 6 then 0
  else if idx = 7 then m.a
  else 0

/-- set_reg_idx: register write with IX/IY half substitution; returns the
machine and the (possibly updated) ixiy value. -/
def set_reg_idx (m : Mach) (idx ixiy v0 : Nat) : Mach × Nat :=
  let val := v0 % 256
  if idx = 0 then ({ m with b := val }, ixiy)
  else if idx = 1 then ({ m with c := val }, ixiy)
  else if idx = 2 then ({ m with d := val }, ixiy)
  else if idx = 3 then ({ m with e := val }, ixiy)
  else if idx = 4 then (m, ((ixiy &&& 0x00FF) ||| ((val <<< 8) % 65536)) % 65536)
  else if idx = 5 then (m, ((ixiy &&& 0xFF00) ||| val) % 65536)
  else if idx = 6 then (m, ixiy)
  else if idx = 7 then ({ m with a := val }, ixiy)
  else (m, ixiy)

/-- Effective address of (IX+d) / (IY+d): the displacement byte is
sign-extended and the sum taken as uint16. -/
def idxAddr (ixiy dbyte : Nat) : Nat :=
  (ixiy + (if dbyte % 256 < 128 then dbyte % 256 else dbyte % 256 + 65280)) % 65536

/-- CB-prefix handler (exec_cb in src/z80.c). -/
def exec_cb (m0 : Mach) : Mach × Nat :=
  let p := fetch m0
  let m := incR p.1
  let op := p.2
  let x := op >>> 6
  let y := (op >>> 3) &&& 7
  let z := op &&& 7
  let clk := if z = 6 then 15 else 8
  if x = 0 then
    let val := get_reg m z
    let q :=
      if y = 0 then rot_rlc m val
      else if y = 1 then rot_rrc m val
      else if y = 2 then rot_rl m val
      else if y = 3 then rot_rr m val
      else if y = 4 then rot_sla m val
      else if y = 5 then rot_sra m val
      else if y = 6 then rot_sll m val
      else if y = 7 then rot_srl m val
      else (m, val)
    (set_reg q.1 z q.2, clk)
  else if x = 1 then
    let val := get_reg m z
    let m1 := op_bit m y val
    (m1, if z = 6 then 12 else clk)
  else if x = 2 then
    let val := get_reg m z
    (set_reg m z (val &&& ((1 <<< y) ^^^ 0xFF)), clk)
  else
    let val := get_reg m z
    (set_reg m z (val ||| (1 <<< y)), clk)

/-- DDCB/FDCB handler (exec_ddfdcb in src/z80.c): DD CB d op. -/
def exec_ddfdcb (m0 : Mach) (ixiy : Nat) : Mach × Nat :=
  let pd := fetch m0
  let po := fetch pd.1
  let m := po.1
  let op := po.2
  let addr := idxAddr ixiy pd.2
  let val := rb m.mem addr
  let x := op >>> 6
  let y := (op >>> 3) &&& 7
  let z := op &&& 7
  if x = 0 then
    let q :=
      if y = 0 then rot_rlc m val
      else if y = 1 then rot_rrc m val
      else if y = 2 then rot_rl m val
      else if y = 3 then rot_rr m val
      else if y = 4 then rot_sla m val
      else if y = 5 then rot_sra m val
      else if y = 6 then rot_sll m val
      else if y = 7 then rot_srl m val
      else (m, val)
    let m1 := wb q.1 addr q.2
    (if z ≠ 6 then set_reg m1 z q.2 else m1, 23)
  else if x = 1 then
    (op_bit_idx m y val ((addr >>> 8) &&& 0xFF), 20)
  else if x = 2 then
    let r := val &&& ((1 <<< y) ^^^ 0xFF)
    let m1 := wb m addr r
    (if z ≠ 6 then set_reg m1 z r else m1, 23)
  else
    let r := val ||| (1 <<< y)
    let m1 := wb m addr r
    (if z ≠ 6 then set_reg m1 z r else m1, 23)

/-- LDI (exec_ed, ED block group). -/
def op_ldi (m : Mach) : Mach × Nat :=
  let val := rb m.mem (getHL m)
  let m1 := wb m (getDE m) val
  let m2 := setHL m1 ((getHL m1 + 1) % 65536)
  let m3 := setDE m2 ((getDE m2 + 1) % 65536)
  let m4 := setBC m3 ((getBC m3 + 65535) % 65536)
  let n := (val + m4.a) % 256
  ({ m4 with f := (m4.f &&& (Z80_SF ||| Z80_ZF ||| Z80_CF))
                  ||| (if getBC m4 ≠ 0 then Z80_PF else 0)
                  ||| (n &&& Z80_XF) ||| ((n <<< 4) &&& Z80_YF) }, 16)

/-- LDD. -/
def op_ldd (m : Mach) : Mach × Nat :=
  let val := rb m.mem (getHL m)
  let m1 := wb m (getDE m) val
  let m2 := setHL m1 ((getHL m1 + 65535) % 65536)
  let m3 := setDE m2 ((getDE m2 + 65535) % 65536)
  let m4 := setBC m3 ((getBC m3 + 65535) % 65536)
  let n := (val + m4.a) % 256
  ({ m4 with f := (m4.f &&& (Z80_SF ||| Z80_ZF ||| Z80_CF))
                  ||| (if getBC m4 ≠ 0 then Z80_PF else 0)
                  ||| (n &&& Z80_XF) ||| ((n <<< 4) &&& Z80_YF) }, 16)

/-- LDIR: LDI, then if BC is nonzero rewind PC by 2 and charge 21. -/
def op_ldir (m : Mach) : Mach × Nat :=
  let pl := op_ldi m
  if getBC pl.1 ≠ 0 then ({ pl.1 with pc := (pl.1.pc + 65534) % 65536 }, 21)
  else (pl.1, 16)

/-- LDDR. -/
def op_lddr (m : Mach) : Mach × Nat :=
  let pl := op_ldd m
  if getBC pl.1 ≠ 0 then ({ pl.1 with pc := (pl.1.pc + 65534) % 65536 }, 21)
  else (pl.1, 16)

/-- CPI. -/
def op_cpi (m : Mach) : Mach × Nat :=
  let val := rb m.mem (getHL m)
  let r := (m.a + 256 - val) % 256
  let hc := ((m.a &&& 0x0F) + 256 - (val &&& 0x0F)) % 256
  let m2 := setHL m ((getHL m + 1) % 65536)
  let m3 := setBC m2 ((getBC m2 + 65535) % 65536)
  let n := (r + 256 - (if hc &&& Z80_HF ≠ 0 then 1 else 0)) % 256
  ({ m3 with f := (m3.f &&& Z80_CF)
                  ||| (sz53p r &&& 0xD3)
                  ||| (hc &&& Z80_HF) ||| Z80_NF
                  ||| (if getBC m3 ≠ 0 then Z80_PF else 0)
                  ||| (n &&& Z80_XF) ||| ((n <<< 4) &&& Z80_YF) }, 16)

/-- CPD. -/
def op_cpd (m : Mach) : Mach × Nat :=
  let val := rb m.mem (getHL m)
  let r := (m.a + 256 - val) % 256
  let hc := ((m.a &&& 0x0F) + 256 - (val &&& 0x0F)) % 256
  let m2 := setHL m ((getHL m + 65535) % 65536)
  let m3 := setBC m2 ((getBC m2 + 65535) % 65536)
  let n := (r + 256 - (if hc &&& Z80_HF ≠ 0 then 1 else 0)) % 256
  ({ m3 with f := (m3.f &&& Z80_CF)
                  ||| (sz53p r &&& 0xD3)
                  ||| (hc &&& Z80_HF) ||| Z80_NF
                  ||| (if getBC m3 ≠ 0 then Z80_PF else 0)
                  ||| (n &&& Z80_XF) ||| ((n <<< 4) &&& Z80_YF) }, 16)

/-- CPIR: CPI, then repeat while BC is nonzero and the bytes differed. -/
def op_cpir (m : Mach) : Mach × Nat :=
  let r := (m.a + 256 - rb m.mem (getHL m)) % 256
  let pl := op_cpi m
  if getBC pl.1 ≠ 0 ∧ r ≠ 0 then
    ({ pl.1 with pc := (pl.1.pc + 65534) % 65536 }, 21)
  else (pl.1, 16)

/-- CPDR. -/
def op_cpdr (m : Mach) : Mach × Nat :=
  let r := (m.a + 256 - rb m.mem (getHL m)) % 256
  let pl := op_cpd m
  if getBC pl.1 ≠ 0 ∧ r ≠ 0 then
    ({ pl.1 with pc := (pl.1.pc + 65534) % 65536 }, 21)
  else (pl.1, 16)

/-- INI. -/
def op_ini (io : Mem) (m : Mach) : Mach × Nat :=
  let val := rio io (getBC m)
  let m1 := wb m (getHL m) val
  let m2 := setHL m1 ((getHL m1 + 1) % 65536)
  let pd := alu_dec8 m2 m2.b
  let m3 : Mach := { pd.1 with b := pd.2 }
  ({ m3 with f := m3.f ||| ((val >>> 6) &&& Z80_NF) }, 16)

/-- IND. -/
def op_ind (io : Mem) (m : Mach) : Mach × Nat :=
  let val := rio io (getBC m)
  let m1 := wb m (getHL m) val
  let m2 := setHL m1 ((getHL m1 + 65535) % 65536)
  let pd := alu_dec8 m2 m2.b
  let m3 : Mach := { pd.1 with b := pd.2 }
  ({ m3 with f := m3.f ||| ((val >>> 6) &&& Z80_NF) }, 16)

/-- INIR: INI, then repeat while B is nonzero. -/
def op_inir (io : Mem) (m : Mach) : Mach × Nat :=
  let pl := op_ini io m
  if pl.1.b ≠ 0 then ({ pl.1 with pc := (pl.1.pc + 65534) % 65536 }, 21)
  else (pl.1, 16)

/-- INDR. -/
def op_indr (io : Mem) (m : Mach) : Mach × Nat :=
  let pl := op_ind io m
  if pl.1.b ≠ 0 then ({ pl.1 with pc := (pl.1.pc + 65534) % 65536 }, 21)
  else (pl.1, 16)

/-- OUTI (the output itself has no machine-visible effect). -/
def op_outi (m : Mach) : Mach × Nat :=
  let val := rb m.mem (getHL m)
  let pd := alu_dec8 m m.b
  let m1 : Mach := { pd.1 with b := pd.2 }
  let m2 := setHL m1 ((getHL m1 + 1) % 65536)
  ({ m2 with f := m2.f ||| ((val >>> 6) &&& Z80_NF) }, 16)

/-- OUTD. -/
def op_outd (m : Mach) : Mach × Nat :=
  let val := rb m.mem (getHL m)
  let pd := alu_dec8 m m.b
  let m1 : Mach := { pd.1 with b := pd.2 }
  let m2 := setHL m1 ((getHL m1 + 65535) % 65536)
  ({ m2 with f := m2.f ||| ((val >>> 6) &&& Z80_NF) }, 16)

/-- OTIR: OUTI, then repeat while B is nonzero. -/
def op_otir (m : Mach) : Mach × Nat :=
  let pl := op_outi m
  if pl.1.b ≠ 0 then ({ pl.1 with pc := (pl.1.pc + 65534) % 65536 }, 21)
  else (pl.1, 16)

/-- OTDR. -/
def op_otdr (m : Mach) : Mach × Nat :=
  let pl := op_outd m
  if pl.1.b ≠ 0 then ({ pl.1 with pc := (pl.1.pc + 65534) % 65536 }, 21)
  else (pl.1, 16)

/-- LD A,I / LD A,R flag update: the parity slot is rewritten from IFF2. -/
def ld_a_ir_flags (m : Mach) (v : Nat) : Mach :=
  let m1 : Mach := { m with a := v % 256 }
  let m2 : Mach :=
    { m1 with f := (m1.f &&& Z80_CF) ||| sz53p m1.a
                   ||| (if m1.iff2 ≠ 0 then Z80_PF else 0) }
  { m2 with f := (m2.f &&& 0xFB) ||| (if m2.iff2 ≠ 0 then Z80_PF else 0) }

/-- The z = 7 arm of the ED x = 1 group: LD I,A / LD R,A / LD A,I /
LD A,R / RRD / RLD / NOPs. -/
def exec_ed_x1z7 (m : Mach) (y : Nat) : Mach × Nat :=
  if y = 0 then ({ m with i := m.a % 256 }, 9)
  else if y = 1 then ({ m with r := m.a % 256 }, 9)
  else if y = 2 then (ld_a_ir_flags m m.i, 9)
  else if y = 3 then (ld_a_ir_flags m m.r, 9)
  else if y = 4 then
    let val := rb m.mem (getHL m)
    let lo_a := m.a &&& 0x0F
    let m1 : Mach := { m with a := ((m.a &&& 0xF0) ||| (val &&& 0x0F)) % 256 }
    let val2 := ((val >>> 4) ||| (lo_a <<< 4)) % 256
    let m2 := wb m1 (getHL m1) val2
    ({ m2 with f := (m2.f &&& Z80_CF) ||| sz53p m2.a }, 18)
  else if y = 5 then
    let val := rb m.mem (getHL m)
    let lo_a := m.a &&& 0x0F
    let m1 : Mach := { m with a := ((m.a &&& 0xF0) ||| (val >>> 4)) % 256 }
    let val2 := ((val <<< 4) ||| lo_a) % 256
    let m2 := wb m1 (getHL m1) val2
    ({ m2 with f := (m2.f &&& Z80_CF) ||| sz53p m2.a }, 18)
  else (m, 8)

/-- The x = 1 group of the ED prefix. -/
def exec_ed_x1 (io : Mem) (m : Mach) (op : Nat) : Mach × Nat :=
  let y := (op >>> 3) &&& 7
  let z := op &&& 7
  let p := (op >>> 4) &&& 3
  let q := (op >>> 3) &&& 1
  if z = 0 then
    let val := rio io (getBC m)
    let m1 := if y ≠ 6 then set_reg m y val else m
    ({ m1 with f := (m1.f &&& Z80_CF) ||| sz53p val }, 12)
  else if z = 1 then
    (m, 12)
  else if z = 2 then
    if q = 0 then (alu_sbc16 m (get_rp m p), 15)
    else (alu_adc16 m (get_rp m p), 15)
  else if z = 3 then
    if q = 0 then
      let pa := fetch16 m
      (ww pa.1 pa.2 (get_rp pa.1 p), 20)
    else
      let pa := fetch16 m
      (set_rp pa.1 p (rw pa.1.mem pa.2), 20)
  else if z = 4 then
    let a0 := m.a
    (alu_sub8 { m with a := 0 } a0, 8)
  else if z = 5 then
    let pp := pop m
    ({ pp.1 with pc := pp.2 % 65536, iff1 := pp.1.iff2 }, 14)
  else if z = 6 then
    let m1 : Mach :=
      if y = 0 ∨ y = 4 then { m with im := 0 }
      else if y = 1 ∨ y = 5 then { m with im := 0 }
      else if y = 2 ∨ y = 6 then { m with im := 1 }
      else { m with im := 2 }
    (m1, 8)
  else exec_ed_x1z7 m y

/-- The block-instruction group of the ED prefix (x = 2, y >= 4,
z <= 3). -/
def exec_ed_block (io : Mem) (m : Mach) (y z : Nat) : Mach × Nat :=
  if z = 0 then
    if y = 4 then op_ldi m
    else if y = 5 then op_ldd m
    else if y = 6 then op_ldir m
    else op_lddr m
  else if z = 1 then
    if y = 4 then op_cpi m
    else if y = 5 then op_cpd m
    else if y = 6 then op_cpir m
    else op_cpdr m
  else if z = 2 then
    if y = 4 then op_ini io m
    else if y = 5 then op_ind io m
    else if y = 6 then op_inir io m
    else op_indr io m
  else
    if y = 4 then op_outi m
    else if y = 5 then op_outd m
    else if y = 6 then op_otir m
    else op_otdr m

/-- ED-prefix handler (exec_ed in src/z80.c). -/
def exec_ed (io : Mem) (m0 : Mach) : Mach × Nat :=
  let pf := fetch m0
  let m := incR pf.1
  let op := pf.2
  let x := op >>> 6
  let y := (op >>> 3) &&& 7
  let z := op &&& 7
  if x = 1 then exec_ed_x1 io m op
  else if x = 2 ∧ y ≥ 4 ∧ z ≤ 3 then exec_ed_block io m y z
  else (m, 8)

/-- Sign extension of a displacement byte onto a 16-bit program counter:
adding (int8_t)d to a uint16 is adding d (d < 128) or d - 256 (mod 2^16). -/
def sext8 (dbyte : Nat) : Nat :=
  if dbyte % 256 < 128 then dbyte % 256 else dbyte % 256 + 65280

/-- Store the DD/FD-selected index register back into the CPU state. -/
def stIxiy (m : Mach) (useIx : Bool) (v : Nat) : Mach :=
  if useIx then { m with ix := v % 65536 } else { m with iy := v % 65536 }

/-- The ALU dispatch switch shared by the y-indexed ALU operations. -/
def aluDispatch (m : Mach) (y val : Nat) : Mach :=
  if y = 0 then alu_add8 m val
  else if y = 1 then alu_adc8 m val
  else if y = 2 then alu_sub8 m val
  else if y = 3 then alu_sbc8 m val
  else if y = 4 then alu_and m val
  else if y = 5 then alu_xor m val
  else if y = 6 then alu_or m val
  else alu_cp m val

/-- Wasted DD/FD prefix fallback (the unprefixed label of exec_ddfd):
rewind PC onto the opcode, compensate the R increment, charge 4 T-states. -/
def ddfd_unprefixed (m : Mach) : Mach × Nat :=
  let m1 : Mach := { m with pc := (m.pc + 65535) % 65536 }
  let m2 := incR m1
  ({ m2 with r := (m2.r &&& 0x80) ||| ((m2.r + 127) &&& 0x7F) }, 4)

/-- The x = 0 group of the DD/FD handler. -/
def exec_ddfd_x0 (m : Mach) (op ixiy : Nat) (useIx : Bool) : Mach × Nat :=
  let y := (op >>> 3) &&& 7
  let z := op &&& 7
  let p := (op >>> 4) &&& 3
  let q := (op >>> 3) &&& 1
  if z = 0 then ddfd_unprefixed m
  else if z = 1 then
    if q = 0 then
      if p = 2 then
        let pn := fetch16 m
        (stIxiy pn.1 useIx pn.2, 14)
      else ddfd_unprefixed m
    else
      if p = 2 then
        let val :=
          if p = 0 then getBC m
          else if p = 1 then getDE m
          else if p = 2 then ixiy
          else if p = 3 then m.sp
          else 0
        let pa := alu_add16 m ixiy val
        (stIxiy pa.1 useIx pa.2, 15)
      else ddfd_unprefixed m
  else if z = 2 then
    if p = 2 then
      if q = 0 then
        let pn := fetch16 m
        (ww pn.1 pn.2 ixiy, 20)
      else
        let pn := fetch16 m
        (stIxiy pn.1 useIx (rw pn.1.mem pn.2), 20)
    else ddfd_unprefixed m
  else if z = 3 then
    if p = 2 then
      if q = 0 then (stIxiy m useIx (ixiy + 1), 10)
      else (stIxiy m useIx (ixiy + 65535), 10)
    else ddfd_unprefixed m
  else if z = 4 then
    if y = 4 then
      let val := (ixiy >>> 8) &&& 0xFF
      let pi := alu_inc8 m val
      (stIxiy pi.1 useIx ((ixiy &&& 0x00FF) ||| ((pi.2 <<< 8) % 65536)), 8)
    else if y = 5 then
      let val := ixiy &&& 0xFF
      let pi := alu_inc8 m val
      (stIxiy pi.1 useIx ((ixiy &&& 0xFF00) ||| pi.2), 8)
    else if y = 6 then
      let pd := fetch m
      let addr := idxAddr ixiy pd.2
      let pi := alu_inc8 pd.1 (rb pd.1.mem addr)
      (wb pi.1 addr pi.2, 23)
    else ddfd_unprefixed m
  else if z = 5 then
    if y = 4 then
      let val := (ixiy >>> 8) &&& 0xFF
      let pi := alu_dec8 m val
      (stIxiy pi.1 useIx ((ixiy &&& 0x00FF) ||| ((pi.2 <<< 8) % 65536)), 8)
    else if y = 5 then
      let val := ixiy &&& 0xFF
      let pi := alu_dec8 m val
      (stIxiy pi.1 useIx ((ixiy &&& 0xFF00) ||| pi.2), 8)
    else if y = 6 then
      let pd := fetch m
      let addr := idxAddr ixiy pd.2
      let pi := alu_dec8 pd.1 (rb pd.1.mem addr)
      (wb pi.1 addr pi.2, 23)
    else ddfd_unprefixed m
  else if z = 6 then
    if y = 4 then
      let pn := fetch m
      (stIxiy pn.1 useIx ((ixiy &&& 0x00FF) ||| ((pn.2 <<< 8) % 65536)), 11)
    else if y = 5 then
      let pn := fetch m
      (stIxiy pn.1 useIx ((ixiy &&& 0xFF00) ||| pn.2), 11)
    else if y = 6 then
      let pd := fetch m
      let pn := fetch pd.1
      (wb pn.1 (idxAddr ixiy pd.2) pn.2, 19)
    else ddfd_unprefixed m
  else ddfd_unprefixed m

/-- The x = 3 group of the DD/FD handler.  Note that opcodes 0xE9 and
0xF9 carry z = 1, so they are dispatched by the z = 1 arm into the
wasted-prefix fallback; the 0xE9/0xF9 tests in the final arm are only
reachable for z in {0, 2, 4, 6} and are dead code, exactly as in the
source. -/
def exec_ddfd_x3 (m : Mach) (op ixiy : Nat) (useIx : Bool) : Mach × Nat :=
  let z := op &&& 7
  let p := (op >>> 4) &&& 3
  let q := (op >>> 3) &&& 1
  if z = 1 then
    if q = 0 ∧ p = 2 then
      let pp := pop m
      (stIxiy pp.1 useIx pp.2, 14)
    else ddfd_unprefixed m
  else if z = 3 then
    if op = 0xE3 then
      let val := rw m.mem m.sp
      let m1 := ww m m.sp ixiy
      (stIxiy m1 useIx val, 23)
    else ddfd_unprefixed m
  else if z = 5 then
    if q = 0 ∧ p = 2 then (push m ixiy, 15)
    else ddfd_unprefixed m
  else if z = 7 then ddfd_unprefixed m
  else if z = 9 then ddfd_unprefixed m
  else
    if op = 0xE9 then ({ m with pc := ixiy % 65536 }, 8)
    else if op = 0xF9 then ({ m with sp := ixiy % 65536 }, 10)
    else ddfd_unprefixed m

/-- DD/FD-prefix handler (exec_ddfd in src/z80.c); useIx selects IX (DD)
or IY (FD). -/
def exec_ddfd (io : Mem) (m0 : Mach) (useIx : Bool) : Mach × Nat :=
  let ixiy := if useIx then m0.ix else m0.iy
  let pf := fetch m0
  let m := incR pf.1
  let op := pf.2
  if op = 0xCB then
    exec_ddfdcb m ixiy
  else if op = 0xDD ∨ op = 0xFD then
    ({ m with pc := (m.pc + 65535) % 65536 }, 4)
  else if op = 0xED then
    let pe := exec_ed io m
    (pe.1, pe.2 + 4)
  else
  let x := op >>> 6
  let y := (op >>> 3) &&& 7
  let z := op &&& 7
  if x = 0 then exec_ddfd_x0 m op ixiy useIx
  else if x = 1 then
    if y = 6 ∧ z = 6 then ddfd_unprefixed m
    else if y = 6 then
      let pd := fetch m
      let val := get_reg pd.1 z
      (wb pd.1 (idxAddr ixiy pd.2) val, 19)
    else if z = 6 then
      let pd := fetch m
      let val := rb pd.1.mem (idxAddr ixiy pd.2)
      (set_reg pd.1 y val, 19)
    else
      let val := get_reg_idx m z ixiy
      let ps := set_reg_idx m y ixiy val
      (stIxiy ps.1 useIx ps.2, 8)
  else if x = 2 then
    if z = 6 then
      let pd := fetch m
      let val := rb pd.1.mem (idxAddr ixiy pd.2)
      (aluDispatch pd.1 y val, 19)
    else
      let val := get_reg_idx m z ixiy
      (aluDispatch m y val, 8)
  else exec_ddfd_x3 m op ixiy useIx

/-- The z = 7 arm of the unprefixed x = 0 group: RLCA RRCA RLA RRA DAA
CPL SCF CCF. -/
def exec_main_x0z7 (m : Mach) (y : Nat) : Mach × Nat :=
  if y = 0 then
    let cbit := m.a >>> 7
    let a1 := ((m.a <<< 1) ||| cbit) % 256
    ({ m with a := a1,
              f := (m.f &&& (Z80_SF ||| Z80_ZF ||| Z80_PF))
                   ||| (a1 &&& (Z80_YF ||| Z80_XF)) ||| cbit }, 4)
  else if y = 1 then
    let cbit := m.a &&& 1
    let a1 := ((m.a >>> 1) ||| (cbit <<< 7)) % 256
    ({ m with a := a1,
              f := (m.f &&& (Z80_SF ||| Z80_ZF ||| Z80_PF))
                   ||| (a1 &&& (Z80_YF ||| Z80_XF)) ||| cbit }, 4)
  else if y = 2 then
    let cbit := m.a >>> 7
    let a1 := ((m.a <<< 1) ||| (m.f &&& Z80_CF)) % 256
    ({ m with a := a1,
              f := (m.f &&& (Z80_SF ||| Z80_ZF ||| Z80_PF))
                   ||| (a1 &&& (Z80_YF ||| Z80_XF)) ||| cbit }, 4)
  else if y = 3 then
    let cbit := m.a &&& 1
    let a1 := ((m.a >>> 1) ||| ((m.f &&& Z80_CF) <<< 7)) % 256
    ({ m with a := a1,
              f := (m.f &&& (Z80_SF ||| Z80_ZF ||| Z80_PF))
                   ||| (a1 &&& (Z80_YF ||| Z80_XF)) ||| cbit }, 4)
  else if y = 4 then
    let a0 := m.a
    let corr1 := if (m.f &&& Z80_HF ≠ 0) ∨ (a0 &&& 0x0F > 9) then 0x06 else 0
    let corr := if (m.f &&& Z80_CF ≠ 0) ∨ (a0 > 0x99) then corr1 ||| 0x60 else corr1
    let carry := if (m.f &&& Z80_CF ≠ 0) ∨ (a0 > 0x99) then Z80_CF else 0
    if m.f &&& Z80_NF ≠ 0 then
      let a1 := (m.a + 256 - corr) % 256
      ({ m with a := a1,
                f := sz53p a1 ||| (m.f &&& Z80_NF) ||| carry
                     ||| ((a0 ^^^ a1) &&& Z80_HF) }, 4)
    else
      let a1 := (m.a + corr) % 256
      ({ m with a := a1,
                f := sz53p a1 ||| carry ||| ((a0 ^^^ a1) &&& Z80_HF) }, 4)
  else if y = 5 then
    let a1 := (m.a ^^^ 0xFF) % 256
    ({ m with a := a1,
              f := (m.f &&& (Z80_SF ||| Z80_ZF ||| Z80_PF ||| Z80_CF))
                   ||| (a1 &&& (Z80_YF ||| Z80_XF))
                   ||| Z80_HF ||| Z80_NF }, 4)
  else if y = 6 then
    ({ m with f := (m.f &&& (Z80_SF ||| Z80_ZF ||| Z80_PF))
                   ||| (m.a &&& (Z80_YF ||| Z80_XF)) ||| Z80_CF }, 4)
  else
    ({ m with f := (m.f &&& (Z80_SF ||| Z80_ZF ||| Z80_PF))
                   ||| (m.a &&& (Z80_YF ||| Z80_XF))
                   ||| (if m.f &&& Z80_CF ≠ 0 then Z80_HF else 0)
                   ||| ((m.f &&& Z80_CF) ^^^ Z80_CF) }, 4)

/-- The x = 0 group of the unprefixed decoder. -/
def exec_main_x0 (m : Mach) (op : Nat) : Mach × Nat :=
  let y := (op >>> 3) &&& 7
  let z := op &&& 7
  let p := (op >>> 4) &&& 3
  let q := (op >>> 3) &&& 1
  if z = 0 then
    if y = 0 then (m, 4)
    else if y = 1 then
      ({ m with a := m.a', a' := m.a, f := m.f', f' := m.f }, 4)
    else if y = 2 then
      let pd := fetch m
      let b1 := (m.b + 255) % 256
      let m1 : Mach := { pd.1 with b := b1 }
      if b1 ≠ 0 then ({ m1 with pc := (m1.pc + sext8 pd.2) % 65536 }, 13)
      else (m1, 8)
    else if y = 3 then
      let pd := fetch m
      ({ pd.1 with pc := (pd.1.pc + sext8 pd.2) % 65536 }, 12)
    else
      let pd := fetch m
      if eval_cc pd.1 (y - 4) then
        ({ pd.1 with pc := (pd.1.pc + sext8 pd.2) % 65536 }, 12)
      else (pd.1, 7)
  else if z = 1 then
    if q = 0 then
      let pn := fetch16 m
      (set_rp pn.1 p pn.2, 10)
    else
      let hl := getHL m
      let pa := alu_add16 m hl (get_rp m p)
      (setHL pa.1 pa.2, 11)
  else if z = 2 then
    if y = 0 then (wb m (getBC m) m.a, 7)
    else if y = 1 then ({ m with a := rb m.mem (getBC m) }, 7)
    else if y = 2 then (wb m (getDE m) m.a, 7)
    else if y = 3 then ({ m with a := rb m.mem (getDE m) }, 7)
    else if y = 4 then
      let pn := fetch16 m
      (ww pn.1 pn.2 (getHL pn.1), 16)
    else if y = 5 then
      let pn := fetch16 m
      (setHL pn.1 (rw pn.1.mem pn.2), 16)
    else if y = 6 then
      let pn := fetch16 m
      (wb pn.1 pn.2 pn.1.a, 13)
    else
      let pn := fetch16 m
      ({ pn.1 with a := rb pn.1.mem pn.2 }, 13)
  else if z = 3 then
    if q = 0 then (set_rp m p (get_rp m p + 1), 6)
    else (set_rp m p (get_rp m p + 65535), 6)
  else if z = 4 then
    if y = 6 then
      let addr := getHL m
      let pi := alu_inc8 m (rb m.mem addr)
      (wb pi.1 addr pi.2, 11)
    else
      let pi := alu_inc8 m (get_reg m y)
      (set_reg pi.1 y pi.2, 4)
  else if z = 5 then
    if y = 6 then
      let addr := getHL m
      let pi := alu_dec8 m (rb m.mem addr)
      (wb pi.1 addr pi.2, 11)
    else
      let pi := alu_dec8 m (get_reg m y)
      (set_reg pi.1 y pi.2, 4)
  else if z = 6 then
    let pn := fetch m
    if y = 6 then (wb pn.1 (getHL pn.1) pn.2, 10)
    else (set_reg pn.1 y pn.2, 7)
  else exec_main_x0z7 m y

/-- The z = 3 arm of the unprefixed x = 3 group: JP nn, OUT, IN,
EX (SP),HL, EX DE,HL, DI, EI (the CB case is intercepted earlier). -/
def exec_main_x3z3 (io : Mem) (m : Mach) (y : Nat) : Mach × Nat :=
  if y = 0 then
    let pn := fetch16 m
    ({ pn.1 with pc := pn.2 % 65536 }, 10)
  else if y = 1 then (m, 0)
  else if y = 2 then
    let pp := fetch m
    (pp.1, 11)
  else if y = 3 then
    let pp := fetch m
    ({ pp.1 with a := rio io (((pp.1.a <<< 8) % 65536) ||| pp.2) }, 11)
  else if y = 4 then
    let val := rw m.mem m.sp
    let m1 := ww m m.sp (getHL m)
    (setHL m1 val, 19)
  else if y = 5 then
    ({ m with d := m.h, h := m.d, e := m.l, l := m.e }, 4)
  else if y = 6 then
    ({ m with iff1 := 0, iff2 := 0 }, 4)
  else
    ({ m with eiDelay := 1 }, 4)

/-- The x = 3 group of the unprefixed decoder. -/
def exec_main_x3 (io : Mem) (m : Mach) (op : Nat) : Mach × Nat :=
  let y := (op >>> 3) &&& 7
  let z := op &&& 7
  let p := (op >>> 4) &&& 3
  let q := (op >>> 3) &&& 1
  if z = 0 then
    if eval_cc m y then
      let pp := pop m
      ({ pp.1 with pc := pp.2 % 65536 }, 11)
    else (m, 5)
  else if z = 1 then
    if q = 0 then
      let pp := pop m
      (set_rp2 pp.1 p pp.2, 10)
    else
      if p = 0 then
        let pp := pop m
        ({ pp.1 with pc := pp.2 % 65536 }, 10)
      else if p = 1 then
        ({ m with b := m.b', b' := m.b, c := m.c', c' := m.c,
                  d := m.d', d' := m.d, e := m.e', e' := m.e,
                  h := m.h', h' := m.h, l := m.l', l' := m.l }, 4)
      else if p = 2 then
        ({ m with pc := getHL m % 65536 }, 4)
      else
        ({ m with sp := getHL m % 65536 }, 6)
  else if z = 2 then
    let pn := fetch16 m
    if eval_cc pn.1 y then ({ pn.1 with pc := pn.2 % 65536 }, 10)
    else (pn.1, 10)
  else if z = 3 then exec_main_x3z3 io m y
  else if z = 4 then
    let pn := fetch16 m
    if eval_cc pn.1 y then
      let m1 := push pn.1 pn.1.pc
      ({ m1 with pc := pn.2 % 65536 }, 17)
    else (pn.1, 10)
  else if z = 5 then
    if q = 0 then (push m (get_rp2 m p), 11)
    else
      if p = 0 then
        let pn := fetch16 m
        let m1 := push pn.1 pn.1.pc
        ({ m1 with pc := pn.2 % 65536 }, 17)
      else (m, 0)
  else if z = 6 then
    let pn := fetch m
    (aluDispatch pn.1 y pn.2, 7)
  else
    let m1 := push m m.pc
    ({ m1 with pc := y * 8 }, 11)

/-- Main unprefixed decoder of z80_step (src/z80.c); m is the state after
the opcode fetch and R increment, op the fetched opcode. -/
def exec_main (io : Mem) (m : Mach) (op : Nat) : Mach × Nat :=
  let x := op >>> 6
  let y := (op >>> 3) &&& 7
  let z := op &&& 7
  if x = 0 then exec_main_x0 m op
  else if x = 1 then
    if y = 6 ∧ z = 6 then
      ({ m with halted := 1, pc := (m.pc + 65535) % 65536 }, 4)
    else
      (set_reg m y (get_reg m z), if y = 6 ∨ z = 6 then 7 else 4)
  else if x = 2 then
    (aluDispatch m y (get_reg m z), if z = 6 then 7 else 4)
  else exec_main_x3 io m op

/-- EI-delay prelude executed at the top of every z80_step. -/
def eiPrelude (m : Mach) : Mach :=
  if m.eiDelay ≠ 0 then
    let dl := (m.eiDelay + 255) % 256
    if dl = 0 then { m with eiDelay := dl, iff1 := 1, iff2 := 1 }
    else { m with eiDelay := dl }
  else m

/-- The `clocks += clk; return clk` pattern at every return site of
z80_step (clocks is a uint64). -/
def addClk (pr : Mach × Nat) : Mach × Nat :=
  ({ pr.1 with clocks := (pr.1.clocks + pr.2) % 18446744073709551616 }, pr.2)

/-- z80_step: execute one instruction (or one HALT quantum), return the
stepped machine and the T-states consumed. -/
def z80_step (io : Mem) (m0 : Mach) : Mach × Nat :=
  let m := eiPrelude m0
  if m.halted ≠ 0 then
    addClk (incR m, 4)
  else
    let pf := fetch m
    let m1 := incR pf.1
    let op := pf.2
    if op = 0xCB then addClk (exec_cb m1)
    else if op = 0xED then addClk (exec_ed io m1)
    else if op = 0xDD then addClk (exec_ddfd io m1 true)
    else if op = 0xFD then addClk (exec_ddfd io m1 false)
    else addClk (exec_main io m1 op)

/-- z80_interrupt: request a maskable interrupt with a data byte. -/
def z80_interrupt (m : Mach) (data0 : Nat) : Mach :=
  let data := data0 % 256
  if m.iff1 = 0 then m
  else
    let m1 : Mach := { m with halted := 0, iff1 := 0, iff2 := 0 }
    let m2 := incR m1
    if m2.im = 0 then
      if data = 0xFF then
        let m3 := push m2 m2.pc
        { m3 with pc := 0x0038,
                  clocks := (m3.clocks + 13) % 18446744073709551616 }
      else if data &&& 0xC7 = 0xC7 then
        let m3 := push m2 m2.pc
        { m3 with pc := data &&& 0x38,
                  clocks := (m3.clocks + 13) % 18446744073709551616 }
      else m2
    else if m2.im = 1 then
      let m3 := push m2 m2.pc
      { m3 with pc := 0x0038,
                clocks := (m3.clocks + 13) % 18446744073709551616 }
    else if m2.im = 2 then
      let m3 := push m2 m2.pc
      let addr := (((m3.i <<< 8) % 65536) ||| (data &&& 0xFE)) % 65536
      { m3 with pc := rw m3.mem addr % 65536,
                clocks := (m3.clocks + 19) % 18446744073709551616 }
    else m2

/-- Bump a count array at one index. -/
def bump (cnt : Nat → Nat) (k : Nat) : Nat → Nat :=
  fun x => if x = k then cnt x + 1 else cnt x

/-- The scan loop of detect_serial_port (src/unnamed/part_000): iterate i
from 0 to k-1 over the ROM bytes, counting IN A,(n) (0xDB) and OUT (n),A
(0xD3) opcodes by their following port byte.  Returns (in_count,
out_count). -/
def scanCounts (mem : Mem) : Nat → (Nat → Nat) × (Nat → Nat)
  | 0 => (fun _ => 0, fun _ => 0)
  | k + 1 =>
      let prev := scanCounts mem k
      if mem k % 256 = 0xDB then (bump prev.1 (mem (k + 1) % 256), prev.2)
      else if mem k % 256 = 0xD3 then (prev.1, bump prev.2 (mem (k + 1) % 256))
      else prev

/-- The best-port selection loop of detect_serial_port: fold over ports
0..254 tracking (best_port, best_score), starting from (0x80, 0). -/
def bestLoop (ic oc : Nat → Nat) : Nat × Nat :=
  (List.range 255).foldl
    (fun acc p =>
      let hin := ic p + ic (p + 1)
      let hout := oc p + oc (p + 1)
      if hin = 0 ∨ hout = 0 then acc
      else if hin + hout > acc.2 then (p, hin + hout)
      else acc)
    (0x80, 0)

/-- detect_serial_port (src/unnamed/part_000): scan the first romSize bytes
of memory, pick the best-scoring port pair, default 0x80. -/
def detect_serial_port (mem : Mem) (romSize : Nat) : Nat :=
  let counts := scanCounts mem (romSize - 1)
  let best := bestLoop counts.1 counts.2
  if best.2 > 0 then best.1 else 0x80

/-- Well-formedness of a machine state: every stored value fits its C
storage type.  Every state the C program can hold satisfies this. -/
def Wf (m : Mach) : Prop :=
  m.a < 256 ∧ m.f < 256 ∧ m.b < 256 ∧ m.c < 256 ∧ m.d < 256 ∧ m.e < 256 ∧
  m.h < 256 ∧ m.l < 256 ∧ m.a' < 256 ∧ m.f' < 256 ∧ m.b' < 256 ∧
  m.c' < 256 ∧ m.d' < 256 ∧ m.e' < 256 ∧ m.h' < 256 ∧ m.l' < 256 ∧
  m.ix < 65536 ∧ m.iy < 65536 ∧ m.sp < 65536 ∧ m.pc < 65536 ∧
  m.i < 256 ∧ m.r < 256

/-- Loop-continuation condition of the repeating block instructions, read
off the source: BC ≠ 0 after the decrement for LDIR/LDDR (0xB0/0xB8);
BC ≠ 0 after the decrement and comparison result ≠ 0 for CPIR/CPDR
(0xB1/0xB9); B ≠ 0 after the decrement for INIR/INDR/OTIR/OTDR
(0xB2/0xBA/0xB3/0xBB). -/
def repeatMore (m : Mach) (op2 : Nat) : Bool :=
  if op2 = 0xB0 ∨ op2 = 0xB8 then (getBC m + 65535) % 65536 ≠ 0
  else if op2 = 0xB1 ∨ op2 = 0xB9 then
    (getBC m + 65535) % 65536 ≠ 0 ∧
      (m.a + 256 - rb m.mem (getHL m)) % 256 ≠ 0
  else (m.b + 255) % 256 ≠ 0

/-- The all-zero I/O input function (used by concrete witnesses). -/
def ioZero : Mem := fun _ => 0

/-- A memory image given by a list of bytes from address 0 (zeros
elsewhere); used by concrete witnesses. -/
def memOf (l : List Nat) : Mem := fun a => (l.drop a).headD 0

/-- Concrete machine: DD E9 (JP (IX)) at PC 0, with IX and HL distinct. -/
def mJPix : Mach := { ix := 0x5000, h := 0x12, l := 0x34, mem := memOf [0xDD, 0xE9] }

/-- Concrete machine: DD F9 (LD SP,IX) at PC 0. -/
def mSPix : Mach :=
  { ix := 0x5000, h := 0x12, l := 0x34, sp := 0xAAAA, mem := memOf [0xDD, 0xF9] }

/-- Concrete machine: EI at PC 0 with interrupts already enabled. -/
def mEIon : Mach :=
  { iff1 := 1, iff2 := 1, im := 1, sp := 0xFFFE, mem := memOf [0xFB] }

/-- Concrete machine: EI at PC 0 with the EI delay already pending. -/
def mEIEI : Mach := { eiDelay := 1, iff1 := 0, iff2 := 0, mem := memOf [0xFB] }

/-- Concrete machine: EI at PC 0 with interrupts disabled, no delay. -/
def mEIdis : Mach := { iff1 := 0, iff2 := 0, mem := memOf [0xFB] }

/-- Concrete machine: LDIR at PC 0 with BC = 2 (one more pass needed). -/
def mLDIR : Mach :=
  { b := 0, c := 2, d := 0x20, e := 0, h := 0x10, l := 0,
    mem := memOf [0xED, 0xB0] }

/-- Concrete machine: LD R,A (ED 4F) with A bit 7 set, R bit 7 clear. -/
def mLDRA : Mach := { r := 0, a := 0x80, mem := memOf [0xED, 0x4F] }

/-- Concrete machine: CP 0x28 with A = 0 (the ZEXDOC-style quirk case). -/
def mCP : Mach := { a := 0, mem := memOf [0xFE, 0x28] }

/-- Concrete machine for the IM 0 interrupt frame witness. -/
def mIM0 : Mach :=
  { a := 5, r := 0x85, iff1 := 1, iff2 := 1, pc := 0x1234, sp := 0x8000 }


/-- Concrete machine: PUSH BC at PC 0 followed by POP BC. -/
def mPP : Mach := { b := 0x12, c := 0x34, sp := 0xFFF0, mem := memOf [0xC5, 0xC1] }

/-- The loop body of the best-port selection fold of detect_serial_port. -/
def bestStep (ic oc : Nat → Nat) (acc : Nat × Nat) (p : Nat) : Nat × Nat :=
  let hin := ic p + ic (p + 1)
  let hout := oc p + oc (p + 1)
  if hin = 0 ∨ hout = 0 then acc
  else if hin + hout > acc.2 then (p, hin + hout)
  else acc

/-- Concrete ROM image containing one IN A,(0x10) and one OUT (0x11),A. -/
def memC8 : Mem := memOf [0xDB, 0x10, 0xD3, 0x11]

set_option maxRecDepth 8000

/- ── Bitwise bridge lemmas ─────────────────────────────────────────── -/

theorem shl_or_eq_add (b c k : Nat) (h : c < 2 ^ k) :
    (b <<< k) ||| c = b <<< k + c := by
  apply Nat.eq_of_testBit_eq
  intro i
  have hrw : b <<< k + c = 2 ^ k * b + c := by rw [Nat.shiftLeft_eq, mul_comm]
  rw [Nat.testBit_or, hrw, Nat.testBit_mul_pow_two_add b h i]
  rcases lt_or_ge i k with hi | hi
  · rw [if_pos hi]
    simp [Nat.testBit_shiftLeft, Nat.not_le.mpr hi]
  · rw [if_neg (Nat.not_lt.mpr hi)]
    have hc : c < 2 ^ i := lt_of_lt_of_le h (Nat.pow_le_pow_right (by norm_num) hi)
    simp [Nat.testBit_shiftLeft, hi, Nat.testBit_lt_two_pow hc]

theorem and_or_right (x y k : Nat) : (x ||| y) &&& k = (x &&& k) ||| (y &&& k) := by
  apply Nat.eq_of_testBit_eq
  intro i
  simp only [Nat.testBit_or, Nat.testBit_and]
  cases x.testBit i <;> cases y.testBit i <;> cases k.testBit i <;> rfl

theorem and_1 (x : Nat) : x &&& 1 = x % 2 := by
  simpa using Nat.and_pow_two_sub_one_eq_mod x 1

theorem and_3 (x : Nat) : x &&& 3 = x % 4 := by
  simpa using Nat.and_pow_two_sub_one_eq_mod x 2

theorem and_7 (x : Nat) : x &&& 7 = x % 8 := by
  simpa using Nat.and_pow_two_sub_one_eq_mod x 3

theorem and_15 (x : Nat) : x &&& 15 = x % 16 := by
  simpa using Nat.and_pow_two_sub_one_eq_mod x 4

theorem and_127 (x : Nat) : x &&& 127 = x % 128 := by
  simpa using Nat.and_pow_two_sub_one_eq_mod x 7

theorem and_255 (x : Nat) : x &&& 255 = x % 256 := by
  simpa using Nat.and_pow_two_sub_one_eq_mod x 8

theorem and_4095 (x : Nat) : x &&& 4095 = x % 4096 := by
  simpa using Nat.and_pow_two_sub_one_eq_mod x 12

theorem and_65535 (x : Nat) : x &&& 65535 = x % 65536 := by
  simpa using Nat.and_pow_two_sub_one_eq_mod x 16

theorem shr1_div (x : Nat) : x >>> 1 = x / 2 := by
  simpa using Nat.shiftRight_eq_div_pow x 1

theorem shr3_div (x : Nat) : x >>> 3 = x / 8 := by
  simpa using Nat.shiftRight_eq_div_pow x 3

theorem shr4_div (x : Nat) : x >>> 4 = x / 16 := by
  simpa using Nat.shiftRight_eq_div_pow x 4

theorem shr5_div (x : Nat) : x >>> 5 = x / 32 := by
  simpa using Nat.shiftRight_eq_div_pow x 5

theorem shr6_div (x : Nat) : x >>> 6 = x / 64 := by
  simpa using Nat.shiftRight_eq_div_pow x 6

theorem shr7_div (x : Nat) : x >>> 7 = x / 128 := by
  simpa using Nat.shiftRight_eq_div_pow x 7

theorem shr8_div (x : Nat) : x >>> 8 = x / 256 := by
  simpa using Nat.shiftRight_eq_div_pow x 8

theorem shr13_div (x : Nat) : x >>> 13 = x / 8192 := by
  simpa using Nat.shiftRight_eq_div_pow x 13

theorem shr16_div (x : Nat) : x >>> 16 = x / 65536 := by
  simpa using Nat.shiftRight_eq_div_pow x 16

theorem shl4_mul (x : Nat) : x <<< 4 = x * 16 := by
  simpa using Nat.shiftLeft_eq x 4

theorem shl7_mul (x : Nat) : x <<< 7 = x * 128 := by
  simpa using Nat.shiftLeft_eq x 7

theorem shl8_mul (x : Nat) : x <<< 8 = x * 256 := by
  simpa using Nat.shiftLeft_eq x 8

theorem pair_recombine (v : Nat) (h : v < 65536) :
    (((v >>> 8) % 256) <<< 8) % 65536 ||| (v &&& 255) = v := by
  have h8 : v >>> 8 = v / 256 := shr8_div v
  have hd : v / 256 < 256 := by omega
  have he : (v >>> 8) % 256 = v / 256 := by rw [h8]; omega
  rw [he, and_255]
  have hsl : (v / 256) <<< 8 = v / 256 * 256 := shl8_mul _
  rw [Nat.mod_eq_of_lt (by rw [hsl]; omega)]
  rw [shl_or_eq_add _ _ 8 (by simpa using Nat.mod_lt v (show 0 < 256 by norm_num)), hsl]
  omega

theorem incR_or_bit7 (t : Nat) : ((t &&& 128) ||| ((t + 1) &&& 127)) &&& 128 = t &&& 128 := by
  rw [and_or_right, Nat.and_assoc, Nat.and_assoc]
  simp [show (128:Nat) &&& 128 = 128 from rfl, show (127:Nat) &&& 128 = 0 from rfl]

theorem decR_or_bit7 (t : Nat) : ((t &&& 128) ||| ((t + 127) &&& 127)) &&& 128 = t &&& 128 := by
  rw [and_or_right, Nat.and_assoc, Nat.and_assoc]
  simp [show (128:Nat) &&& 128 = 128 from rfl, show (127:Nat) &&& 128 = 0 from rfl]

theorem rb_lt (mem : Mem) (addr : Nat) : rb mem addr < 256 := by
  unfold rb
  omega

/- ── Projection lemmas for the state helpers ───────────────────────── -/

theorem wb_clocks (m : Mach) (a v : Nat) :
    (wb m a v).clocks = m.clocks := rfl

theorem wb_r (m : Mach) (a v : Nat) :
    (wb m a v).r = m.r := rfl

theorem ww_clocks (m : Mach) (a v : Nat) :
    (ww m a v).clocks = m.clocks := rfl

theorem ww_r (m : Mach) (a v : Nat) :
    (ww m a v).r = m.r := rfl

theorem push_clocks (m : Mach) (v : Nat) :
    (push m v).clocks = m.clocks := by simp only [push, ww, wb]

theorem push_r (m : Mach) (v : Nat) :
    (push m v).r = m.r := by simp only [push, ww, wb]

theorem setAF_clocks (m : Mach) (v : Nat) :
    (setAF m v).clocks = m.clocks := rfl

theorem setAF_r (m : Mach) (v : Nat) :
    (setAF m v).r = m.r := rfl

theorem setBC_clocks (m : Mach) (v : Nat) :
    (setBC m v).clocks = m.clocks := rfl

theorem setBC_r (m : Mach) (v : Nat) :
    (setBC m v).r = m.r := rfl

theorem setDE_clocks (m : Mach) (v : Nat) :
    (setDE m v).clocks = m.clocks := rfl

theorem setDE_r (m : Mach) (v : Nat) :
    (setDE m v).r = m.r := rfl

theorem setHL_clocks (m : Mach) (v : Nat) :
    (setHL m v).clocks = m.clocks := rfl

theorem setHL_r (m : Mach) (v : Nat) :
    (setHL m v).r = m.r := rfl

theorem incR_clocks (m : Mach) :
    (incR m).clocks = m.clocks := rfl

theorem alu_add8_clocks (m : Mach) (v : Nat) :
    (alu_add8 m v).clocks = m.clocks := rfl

theorem alu_add8_r (m : Mach) (v : Nat) :
    (alu_add8 m v).r = m.r := rfl

theorem alu_adc8_clocks (m : Mach) (v : Nat) :
    (alu_adc8 m v).clocks = m.clocks := rfl

theorem alu_adc8_r (m : Mach) (v : Nat) :
    (alu_adc8 m v).r = m.r := rfl

theorem alu_sub8_clocks (m : Mach) (v : Nat) :
    (alu_sub8 m v).clocks = m.clocks := rfl

theorem alu_sub8_r (m : Mach) (v : Nat) :
    (alu_sub8 m v).r = m.r := rfl

theorem alu_sbc8_clocks (m : Mach) (v : Nat) :
    (alu_sbc8 m v).clocks = m.clocks := rfl

theorem alu_sbc8_r (m : Mach) (v : Nat) :
    (alu_sbc8 m v).r = m.r := rfl

theorem alu_and_clocks (m : Mach) (v : Nat) :
    (alu_and m v).clocks = m.clocks := rfl

theorem alu_and_r (m : Mach) (v : Nat) :
    (alu_and m v).r = m.r := rfl

theorem alu_xor_clocks (m : Mach) (v : Nat) :
    (alu_xor m v).clocks = m.clocks := rfl

theorem alu_xor_r (m : Mach) (v : Nat) :
    (alu_xor m v).r = m.r := rfl

theorem alu_or_clocks (m : Mach) (v : Nat) :
    (alu_or m v).clocks = m.clocks := rfl

theorem alu_or_r (m : Mach) (v : Nat) :
    (alu_or m v).r = m.r := rfl

theorem alu_cp_clocks (m : Mach) (v : Nat) :
    (alu_cp m v).clocks = m.clocks := rfl

theorem alu_cp_r (m : Mach) (v : Nat) :
    (alu_cp m v).r = m.r := rfl

theorem alu_adc16_clocks (m : Mach) (v : Nat) :
    (alu_adc16 m v).clocks = m.clocks := rfl

theorem alu_adc16_r (m : Mach) (v : Nat) :
    (alu_adc16 m v).r = m.r := rfl

theorem alu_sbc16_clocks (m : Mach) (v : Nat) :
    (alu_sbc16 m v).clocks = m.clocks := rfl

theorem alu_sbc16_r (m : Mach) (v : Nat) :
    (alu_sbc16 m v).r = m.r := rfl

theorem op_bit_clocks (m : Mach) (bi v : Nat) :
    (op_bit m bi v).clocks = m.clocks := rfl

theorem op_bit_r (m : Mach) (bi v : Nat) :
    (op_bit m bi v).r = m.r := rfl

theorem op_bit_idx_clocks (m : Mach) (bi v ah : Nat) :
    (op_bit_idx m bi v ah).clocks = m.clocks := rfl

theorem op_bit_idx_r (m : Mach) (bi v ah : Nat) :
    (op_bit_idx m bi v ah).r = m.r := rfl

theorem set_reg_clocks (m : Mach) (i v : Nat) :
    (set_reg m i v).clocks = m.clocks := by simp only [set_reg]; split_ifs <;> rfl

theorem set_reg_r (m : Mach) (i v : Nat) :
    (set_reg m i v).r = m.r := by simp only [set_reg]; split_ifs <;> rfl

theorem set_rp_clocks (m : Mach) (i v : Nat) :
    (set_rp m i v).clocks = m.clocks := by simp only [set_rp, setBC, setDE, setHL]; split_ifs <;> rfl

theorem set_rp_r (m : Mach) (i v : Nat) :
    (set_rp m i v).r = m.r := by simp only [set_rp, setBC, setDE, setHL]; split_ifs <;> rfl

theorem set_rp2_clocks (m : Mach) (i v : Nat) :
    (set_rp2 m i v).clocks = m.clocks := by simp only [set_rp2, setBC, setDE, setHL, setAF]; split_ifs <;> rfl

theorem set_rp2_r (m : Mach) (i v : Nat) :
    (set_rp2 m i v).r = m.r := by simp only [set_rp2, setBC, setDE, setHL, setAF]; split_ifs <;> rfl

theorem aluDispatch_clocks (m : Mach) (y v : Nat) :
    (aluDispatch m y v).clocks = m.clocks := by simp only [aluDispatch]; split_ifs <;> rfl

theorem aluDispatch_r (m : Mach) (y v : Nat) :
    (aluDispatch m y v).r = m.r := by simp only [aluDispatch]; split_ifs <;> rfl

theorem stIxiy_clocks (m : Mach) (u : Bool) (v : Nat) :
    (stIxiy m u v).clocks = m.clocks := by simp only [stIxiy]; split_ifs <;> rfl

theorem stIxiy_r (m : Mach) (u : Bool) (v : Nat) :
    (stIxiy m u v).r = m.r := by simp only [stIxiy]; split_ifs <;> rfl

theorem eiPrelude_clocks (m : Mach) :
    (eiPrelude m).clocks = m.clocks := by simp only [eiPrelude]; split_ifs <;> rfl

theorem eiPrelude_r (m : Mach) :
    (eiPrelude m).r = m.r := by simp only [eiPrelude]; split_ifs <;> rfl

theorem fetch_clocks (m : Mach) :
    ((fetch m).1).clocks = m.clocks := rfl

theorem fetch_r (m : Mach) :
    ((fetch m).1).r = m.r := rfl

theorem fetch16_clocks (m : Mach) :
    ((fetch16 m).1).clocks = m.clocks := rfl

theorem fetch16_r (m : Mach) :
    ((fetch16 m).1).r = m.r := rfl

theorem pop_clocks (m : Mach) :
    ((pop m).1).clocks = m.clocks := rfl

theorem pop_r (m : Mach) :
    ((pop m).1).r = m.r := rfl

theorem alu_inc8_clocks (m : Mach) (v : Nat) :
    ((alu_inc8 m v).1).clocks = m.clocks := rfl

theorem alu_inc8_r (m : Mach) (v : Nat) :
    ((alu_inc8 m v).1).r = m.r := rfl

theorem alu_dec8_clocks (m : Mach) (v : Nat) :
    ((alu_dec8 m v).1).clocks = m.clocks := rfl

theorem alu_dec8_r (m : Mach) (v : Nat) :
    ((alu_dec8 m v).1).r = m.r := rfl

theorem alu_add16_clocks (m : Mach) (d v : Nat) :
    ((alu_add16 m d v).1).clocks = m.clocks := rfl

theorem alu_add16_r (m : Mach) (d v : Nat) :
    ((alu_add16 m d v).1).r = m.r := rfl

theorem rot_rlc_clocks (m : Mach) (v : Nat) :
    ((rot_rlc m v).1).clocks = m.clocks := rfl

theorem rot_rlc_r (m : Mach) (v : Nat) :
    ((rot_rlc m v).1).r = m.r := rfl

theorem rot_rrc_clocks (m : Mach) (v : Nat) :
    ((rot_rrc m v).1).clocks = m.clocks := rfl

theorem rot_rrc_r (m : Mach) (v : Nat) :
    ((rot_rrc m v).1).r = m.r := rfl

theorem rot_rl_clocks (m : Mach) (v : Nat) :
    ((rot_rl m v).1).clocks = m.clocks := rfl

theorem rot_rl_r (m : Mach) (v : Nat) :
    ((rot_rl m v).1).r = m.r := rfl

theorem rot_rr_clocks (m : Mach) (v : Nat) :
    ((rot_rr m v).1).clocks = m.clocks := rfl

theorem rot_rr_r (m : Mach) (v : Nat) :
    ((rot_rr m v).1).r = m.r := rfl

theorem rot_sla_clocks (m : Mach) (v : Nat) :
    ((rot_sla m v).1).clocks = m.clocks := rfl

theorem rot_sla_r (m : Mach) (v : Nat) :
    ((rot_sla m v).1).r = m.r := rfl

theorem rot_sra_clocks (m : Mach) (v : Nat) :
    ((rot_sra m v).1).clocks = m.clocks := rfl

theorem rot_sra_r (m : Mach) (v : Nat) :
    ((rot_sra m v).1).r = m.r := rfl

theorem rot_sll_clocks (m : Mach) (v : Nat) :
    ((rot_sll m v).1).clocks = m.clocks := rfl

theorem rot_sll_r (m : Mach) (v : Nat) :
    ((rot_sll m v).1).r = m.r := rfl

theorem rot_srl_clocks (m : Mach) (v : Nat) :
    ((rot_srl m v).1).clocks = m.clocks := rfl

theorem rot_srl_r (m : Mach) (v : Nat) :
    ((rot_srl m v).1).r = m.r := rfl

theorem set_reg_idx_clocks (m : Mach) (i x v : Nat) :
    ((set_reg_idx m i x v).1).clocks = m.clocks := by simp only [set_reg_idx]; split_ifs <;> rfl

theorem set_reg_idx_r (m : Mach) (i x v : Nat) :
    ((set_reg_idx m i x v).1).r = m.r := by simp only [set_reg_idx]; split_ifs <;> rfl


/- ── clocks preservation through the instruction handlers ──────────── -/

theorem ite_fst {c : Prop} [Decidable c] (a b : Mach × Nat) :
    (ite c a b).1 = ite c a.1 b.1 := apply_ite _ c a b

theorem ite_clocks {c : Prop} [Decidable c] (a b : Mach) :
    (ite c a b).clocks = ite c a.clocks b.clocks := apply_ite _ c a b

theorem ddfd_unprefixed_clocks (m : Mach) :
    (ddfd_unprefixed m).1.clocks = m.clocks := by
  simp only [ddfd_unprefixed, incR]

theorem op_ldi_clocks (m : Mach) : (op_ldi m).1.clocks = m.clocks := by
  simp only [op_ldi, wb, setHL, setDE, setBC]

theorem op_ldd_clocks (m : Mach) : (op_ldd m).1.clocks = m.clocks := by
  simp only [op_ldd, wb, setHL, setDE, setBC]

theorem op_cpi_clocks (m : Mach) : (op_cpi m).1.clocks = m.clocks := by
  simp only [op_cpi, setHL, setBC]

theorem op_cpd_clocks (m : Mach) : (op_cpd m).1.clocks = m.clocks := by
  simp only [op_cpd, setHL, setBC]

theorem op_outi_clocks (m : Mach) : (op_outi m).1.clocks = m.clocks := by
  simp only [op_outi, setHL, alu_dec8]

theorem op_outd_clocks (m : Mach) : (op_outd m).1.clocks = m.clocks := by
  simp only [op_outd, setHL, alu_dec8]

theorem op_ini_clocks (io : Mem) (m : Mach) : (op_ini io m).1.clocks = m.clocks := by
  simp only [op_ini, wb, setHL, alu_dec8]

theorem op_ind_clocks (io : Mem) (m : Mach) : (op_ind io m).1.clocks = m.clocks := by
  simp only [op_ind, wb, setHL, alu_dec8]

theorem op_ldir_clocks (m : Mach) : (op_ldir m).1.clocks = m.clocks := by
  simp only [op_ldir, ite_fst, ite_clocks, op_ldi_clocks, ite_self]

theorem op_lddr_clocks (m : Mach) : (op_lddr m).1.clocks = m.clocks := by
  simp only [op_lddr, ite_fst, ite_clocks, op_ldd_clocks, ite_self]

theorem op_cpir_clocks (m : Mach) : (op_cpir m).1.clocks = m.clocks := by
  simp only [op_cpir, ite_fst, ite_clocks, op_cpi_clocks, ite_self]

theorem op_cpdr_clocks (m : Mach) : (op_cpdr m).1.clocks = m.clocks := by
  simp only [op_cpdr, ite_fst, ite_clocks, op_cpd_clocks, ite_self]

theorem op_otir_clocks (m : Mach) : (op_otir m).1.clocks = m.clocks := by
  simp only [op_otir, ite_fst, ite_clocks, op_outi_clocks, ite_self]

theorem op_otdr_clocks (m : Mach) : (op_otdr m).1.clocks = m.clocks := by
  simp only [op_otdr, ite_fst, ite_clocks, op_outd_clocks, ite_self]

theorem op_inir_clocks (io : Mem) (m : Mach) : (op_inir io m).1.clocks = m.clocks := by
  simp only [op_inir, ite_fst, ite_clocks, op_ini_clocks, ite_self]

theorem op_indr_clocks (io : Mem) (m : Mach) : (op_indr io m).1.clocks = m.clocks := by
  simp only [op_indr, ite_fst, ite_clocks, op_ind_clocks, ite_self]

theorem ld_a_ir_flags_clocks (m : Mach) (v : Nat) :
    (ld_a_ir_flags m v).clocks = m.clocks := by
  simp only [ld_a_ir_flags]

theorem exec_ed_x1z7_clocks (m : Mach) (y : Nat) :
    (exec_ed_x1z7 m y).1.clocks = m.clocks := by
  simp only [exec_ed_x1z7, ite_fst, ite_clocks, ld_a_ir_flags_clocks,
    wb_clocks, ite_self]

theorem exec_ed_x1_clocks (io : Mem) (m : Mach) (op : Nat) :
    (exec_ed_x1 io m op).1.clocks = m.clocks := by
  simp only [exec_ed_x1, ite_fst, ite_clocks, exec_ed_x1z7_clocks,
    set_reg_clocks, set_rp_clocks, ww_clocks, pop_clocks, fetch16_clocks,
    alu_sub8_clocks, alu_adc16_clocks, alu_sbc16_clocks, ite_self]

theorem exec_ed_block_clocks (io : Mem) (m : Mach) (y z : Nat) :
    (exec_ed_block io m y z).1.clocks = m.clocks := by
  simp only [exec_ed_block, ite_fst, ite_clocks, op_ldi_clocks,
    op_ldd_clocks, op_ldir_clocks, op_lddr_clocks, op_cpi_clocks,
    op_cpd_clocks, op_cpir_clocks, op_cpdr_clocks, op_ini_clocks,
    op_ind_clocks, op_inir_clocks, op_indr_clocks, op_outi_clocks,
    op_outd_clocks, op_otir_clocks, op_otdr_clocks, ite_self]

theorem exec_ed_clocks (io : Mem) (m : Mach) :
    (exec_ed io m).1.clocks = m.clocks := by
  simp only [exec_ed, ite_fst, ite_clocks, exec_ed_x1_clocks,
    exec_ed_block_clocks, incR_clocks, fetch_clocks, ite_self]

theorem exec_cb_clocks (m : Mach) : (exec_cb m).1.clocks = m.clocks := by
  simp only [exec_cb, ite_fst, ite_clocks, set_reg_clocks, rot_rlc_clocks,
    rot_rrc_clocks, rot_rl_clocks, rot_rr_clocks, rot_sla_clocks,
    rot_sra_clocks, rot_sll_clocks, rot_srl_clocks, op_bit_clocks,
    incR_clocks, fetch_clocks, wb_clocks, ite_self]

theorem exec_ddfdcb_clocks (m : Mach) (x : Nat) :
    (exec_ddfdcb m x).1.clocks = m.clocks := by
  simp only [exec_ddfdcb, ite_fst, ite_clocks, set_reg_clocks,
    rot_rlc_clocks, rot_rrc_clocks, rot_rl_clocks, rot_rr_clocks,
    rot_sla_clocks, rot_sra_clocks, rot_sll_clocks, rot_srl_clocks,
    op_bit_idx_clocks, fetch_clocks, wb_clocks, ite_self]

theorem exec_ddfd_x0_clocks (m : Mach) (op x : Nat) (u : Bool) :
    (exec_ddfd_x0 m op x u).1.clocks = m.clocks := by
  simp only [exec_ddfd_x0, ite_fst, ite_clocks, ddfd_unprefixed_clocks,
    stIxiy_clocks, wb_clocks, ww_clocks, fetch_clocks, fetch16_clocks,
    alu_add16_clocks, alu_inc8_clocks, alu_dec8_clocks, ite_self]

theorem exec_ddfd_x3_clocks (m : Mach) (op x : Nat) (u : Bool) :
    (exec_ddfd_x3 m op x u).1.clocks = m.clocks := by
  simp only [exec_ddfd_x3, ite_fst, ite_clocks, ddfd_unprefixed_clocks,
    stIxiy_clocks, ww_clocks, push_clocks, pop_clocks, ite_self]

theorem exec_ddfd_clocks (io : Mem) (m : Mach) (u : Bool) :
    (exec_ddfd io m u).1.clocks = m.clocks := by
  simp only [exec_ddfd, ite_fst, ite_clocks, exec_ddfdcb_clocks,
    exec_ed_clocks, exec_ddfd_x0_clocks, exec_ddfd_x3_clocks,
    ddfd_unprefixed_clocks, stIxiy_clocks, set_reg_clocks,
    set_reg_idx_clocks, wb_clocks, incR_clocks, fetch_clocks,
    aluDispatch_clocks, ite_self]

theorem exec_main_x0z7_clocks (m : Mach) (y : Nat) :
    (exec_main_x0z7 m y).1.clocks = m.clocks := by
  simp only [exec_main_x0z7, ite_fst, ite_clocks, ite_self]

theorem exec_main_x0_clocks (m : Mach) (op : Nat) :
    (exec_main_x0 m op).1.clocks = m.clocks := by
  simp only [exec_main_x0, ite_fst, ite_clocks, exec_main_x0z7_clocks,
    set_reg_clocks, set_rp_clocks, setHL_clocks, wb_clocks, ww_clocks,
    fetch_clocks, fetch16_clocks, alu_add16_clocks, alu_inc8_clocks,
    alu_dec8_clocks, ite_self]

theorem exec_main_x3z3_clocks (io : Mem) (m : Mach) (y : Nat) :
    (exec_main_x3z3 io m y).1.clocks = m.clocks := by
  simp only [exec_main_x3z3, ite_fst, ite_clocks, setHL_clocks, ww_clocks,
    fetch_clocks, fetch16_clocks, ite_self]

theorem exec_main_x3_clocks (io : Mem) (m : Mach) (op : Nat) :
    (exec_main_x3 io m op).1.clocks = m.clocks := by
  simp only [exec_main_x3, ite_fst, ite_clocks, exec_main_x3z3_clocks,
    set_rp2_clocks, push_clocks, pop_clocks, fetch_clocks, fetch16_clocks,
    aluDispatch_clocks, ite_self]

theorem exec_main_clocks (io : Mem) (m : Mach) (op : Nat) :
    (exec_main io m op).1.clocks = m.clocks := by
  simp only [exec_main, ite_fst, ite_clocks, exec_main_x0_clocks,
    exec_main_x3_clocks, set_reg_clocks, aluDispatch_clocks, ite_self]

theorem ite_snd {c : Prop} [Decidable c] (a b : Mach × Nat) :
    (ite c a b).2 = ite c a.2 b.2 := apply_ite _ c a b

/-- C6: a single z80_step call increases the clocks counter (a uint64, so
modulo 2^64) by exactly the value the call returns, on every execution
path: the halted path, the CB/ED/DD/FD prefix handlers (including the
DD/FD wasted-prefix fallback), and every unprefixed opcode. -/
theorem z80_step_adds_clocks (io : Mem) (m : Mach) :
    (z80_step io m).1.clocks =
      (m.clocks + (z80_step io m).2) % 18446744073709551616 := by
  simp only [z80_step, addClk]
  split_ifs <;>
    simp only [exec_cb_clocks, exec_ed_clocks, exec_ddfd_clocks,
      exec_main_clocks, incR_clocks, fetch_clocks, eiPrelude_clocks]

/-- C1: evidence of the divergence.  In the source the opcodes 0xE9 and
0xF9 after a DD prefix have z = 1 and therefore fall into the z = 1
switch arm of exec_ddfd, which sends them to the wasted-prefix fallback;
the arm that would set PC (or SP) from IX is dead code.  Consequently a
single z80_step over DD E9 only consumes the prefix (PC ends on the E9
byte, 4 T-states), and the following step executes JP (HL): PC becomes
HL = 0x1234, not IX = 0x5000.  Likewise DD F9 ends as LD SP,HL. -/
theorem dd_e9_f9_wasted_prefix_divergence :
    (z80_step ioZero mJPix).1.pc = 1 ∧
    (z80_step ioZero mJPix).2 = 4 ∧
    (z80_step ioZero (z80_step ioZero mJPix).1).1.pc = 0x1234 ∧
    (z80_step ioZero mSPix).1.sp = 0xAAAA ∧
    (z80_step ioZero (z80_step ioZero mSPix).1).1.sp = 0x1234 := by
  decide

/-- C2: evidence of the divergence.  Execute EI while interrupts are
already enabled (IFF1 = 1): immediately after that step ei_delay is
active, yet z80_interrupt (whose guard only tests IFF1) accepts the
interrupt: PC jumps to 0x0038, IFF1 is cleared and the return address is
pushed, contradicting the claim that the call returns with the CPU state
unchanged while the EI delay is active. -/
theorem interrupt_accepted_during_ei_delay :
    (z80_step ioZero mEIon).1.eiDelay = 1 ∧
    (z80_step ioZero mEIon).1.iff1 = 1 ∧
    (z80_interrupt (z80_step ioZero mEIon).1 0xFF).pc = 0x0038 ∧
    (z80_interrupt (z80_step ioZero mEIon).1 0xFF).iff1 = 0 ∧
    (z80_interrupt (z80_step ioZero mEIon).1 0xFF).sp = 0xFFFC := by
  decide

/-- C9 counterexample: a z80_step that executes EI while ei_delay is
already active (EI directly followed by EI) sets IFF1 at the start of the
step, so IFF1 is 1 after the step even though it was 0 before,
contradicting the claim as stated for every CPU state. -/
theorem ei_step_with_pending_delay_sets_iff1 :
    (z80_step ioZero mEIEI).1.iff1 = 1 ∧ mEIEI.iff1 = 0 := by
  decide

/-- C4 counterexample: one z80_step executing LD R,A (ED 4F) with A bit 7
set and R bit 7 clear changes bit 7 of R, refuting the claim that every
step preserves it. -/
theorem ld_r_a_changes_r_bit7 :
    (z80_step ioZero mLDRA).1.r &&& 0x80 = 0x80 ∧ mLDRA.r &&& 0x80 = 0 := by
  decide


/- ── eiPrelude leaves everything but the interrupt flip-flops alone ── -/

theorem eiPrelude_a (m : Mach) : (eiPrelude m).a = m.a := by
  simp only [eiPrelude]; split_ifs <;> rfl

theorem eiPrelude_f (m : Mach) : (eiPrelude m).f = m.f := by
  simp only [eiPrelude]; split_ifs <;> rfl

theorem eiPrelude_b (m : Mach) : (eiPrelude m).b = m.b := by
  simp only [eiPrelude]; split_ifs <;> rfl

theorem eiPrelude_c (m : Mach) : (eiPrelude m).c = m.c := by
  simp only [eiPrelude]; split_ifs <;> rfl

theorem eiPrelude_d (m : Mach) : (eiPrelude m).d = m.d := by
  simp only [eiPrelude]; split_ifs <;> rfl

theorem eiPrelude_e (m : Mach) : (eiPrelude m).e = m.e := by
  simp only [eiPrelude]; split_ifs <;> rfl

theorem eiPrelude_h (m : Mach) : (eiPrelude m).h = m.h := by
  simp only [eiPrelude]; split_ifs <;> rfl

theorem eiPrelude_l (m : Mach) : (eiPrelude m).l = m.l := by
  simp only [eiPrelude]; split_ifs <;> rfl

theorem eiPrelude_a2 (m : Mach) : (eiPrelude m).a' = m.a' := by
  simp only [eiPrelude]; split_ifs <;> rfl

theorem eiPrelude_f2 (m : Mach) : (eiPrelude m).f' = m.f' := by
  simp only [eiPrelude]; split_ifs <;> rfl

theorem eiPrelude_b2 (m : Mach) : (eiPrelude m).b' = m.b' := by
  simp only [eiPrelude]; split_ifs <;> rfl

theorem eiPrelude_c2 (m : Mach) : (eiPrelude m).c' = m.c' := by
  simp only [eiPrelude]; split_ifs <;> rfl

theorem eiPrelude_d2 (m : Mach) : (eiPrelude m).d' = m.d' := by
  simp only [eiPrelude]; split_ifs <;> rfl

theorem eiPrelude_e2 (m : Mach) : (eiPrelude m).e' = m.e' := by
  simp only [eiPrelude]; split_ifs <;> rfl

theorem eiPrelude_h2 (m : Mach) : (eiPrelude m).h' = m.h' := by
  simp only [eiPrelude]; split_ifs <;> rfl

theorem eiPrelude_l2 (m : Mach) : (eiPrelude m).l' = m.l' := by
  simp only [eiPrelude]; split_ifs <;> rfl

theorem eiPrelude_ix (m : Mach) : (eiPrelude m).ix = m.ix := by
  simp only [eiPrelude]; split_ifs <;> rfl

theorem eiPrelude_iy (m : Mach) : (eiPrelude m).iy = m.iy := by
  simp only [eiPrelude]; split_ifs <;> rfl

theorem eiPrelude_sp (m : Mach) : (eiPrelude m).sp = m.sp := by
  simp only [eiPrelude]; split_ifs <;> rfl

theorem eiPrelude_pc (m : Mach) : (eiPrelude m).pc = m.pc := by
  simp only [eiPrelude]; split_ifs <;> rfl

theorem eiPrelude_i (m : Mach) : (eiPrelude m).i = m.i := by
  simp only [eiPrelude]; split_ifs <;> rfl

theorem eiPrelude_halted (m : Mach) : (eiPrelude m).halted = m.halted := by
  simp only [eiPrelude]; split_ifs <;> rfl

theorem eiPrelude_im (m : Mach) : (eiPrelude m).im = m.im := by
  simp only [eiPrelude]; split_ifs <;> rfl

theorem eiPrelude_mem (m : Mach) : (eiPrelude m).mem = m.mem := by
  simp only [eiPrelude]; split_ifs <;> rfl


/- ── C5 machinery ── -/

theorem and_and_eq_zero (x k j : Nat) (h : k &&& j = 0) : (x &&& k) &&& j = 0 := by
  rw [Nat.and_assoc, h, Nat.and_zero]

theorem absorb_215_40 (x : Nat) : (x &&& 215) &&& 40 = 0 := and_and_eq_zero x 215 40 rfl
theorem absorb_16_40 (x : Nat) : (x &&& 16) &&& 40 = 0 := and_and_eq_zero x 16 40 rfl
theorem absorb_1_40 (x : Nat) : (x &&& 1) &&& 40 = 0 := and_and_eq_zero x 1 40 rfl
theorem absorb_4_40 (x : Nat) : (x &&& 4) &&& 40 = 0 := and_and_eq_zero x 4 40 rfl
theorem absorb_40_40 (x : Nat) : (x &&& 40) &&& 40 = x &&& 40 := by
  rw [Nat.and_assoc]
  rfl

theorem lit_2_40 : (2 : Nat) &&& 40 = 0 := rfl
theorem lit_or_32_8 : (32 : Nat) ||| 8 = 40 := rfl

theorem alu_cp_f40 (m : Mach) (v : Nat) :
    (alu_cp m v).f &&& 40 = (v % 256) &&& 40 := by
  simp only [alu_cp, Z80_YF, Z80_XF, Z80_NF, Z80_HF, Z80_CF, Z80_PF, lit_or_32_8]
  rw [and_or_right, and_or_right, and_or_right, and_or_right, and_or_right]
  rw [absorb_215_40, absorb_16_40, absorb_1_40, absorb_4_40, absorb_40_40, lit_2_40]
  simp only [Nat.zero_or, Nat.or_zero]


theorem rb_mod (mem : Mem) (a : Nat) : rb mem a % 256 = rb mem a :=
  Nat.mod_eq_of_lt (rb_lt mem a)

/-- C5: CP sets the undocumented F3/F5 flag bits (bits 3 and 5 of F, mask
0x28) from the operand, not from the subtraction result: after executing
CP n (opcode FE n) they equal the operand bits, and after CP r
(opcodes B8..BF, including CP (HL)) they equal the bits of the register
operand. -/
theorem cp_sets_f3_f5_from_operand (io : Mem) (m : Mach)
    (hw : Wf m) (hh : m.halted = 0) :
    (rb m.mem m.pc = 0xFE →
        (z80_step io m).1.f &&& 0x28 = rb m.mem ((m.pc + 1) % 65536) &&& 0x28) ∧
    (∀ z, z < 8 → rb m.mem m.pc = 0xB8 + z →
        (z80_step io m).1.f &&& 0x28 = get_reg m z &&& 0x28) := by
  have h1 : (eiPrelude m).halted = 0 := by rw [eiPrelude_halted, hh]
  obtain ⟨ha, hf, hb, hc, hd, he, hh8, hl8, hrest⟩ := hw
  constructor
  · intro hop
    simp only [z80_step, addClk, h1, exec_main, exec_main_x3, fetch, incR,
      eiPrelude_mem, eiPrelude_pc, hop, aluDispatch]
    norm_num [shr6_div, shr3_div, shr4_div, and_7, and_3, and_1]
    rw [alu_cp_f40, rb_mod]
  · intro z hz hop
    interval_cases z <;>
    · simp only [z80_step, addClk, h1, exec_main, fetch, incR,
        eiPrelude_mem, eiPrelude_pc, eiPrelude_a, eiPrelude_b, eiPrelude_c,
        eiPrelude_d, eiPrelude_e, eiPrelude_h, eiPrelude_l, hop,
        aluDispatch, get_reg, getHL]
      norm_num [shr6_div, shr3_div, shr4_div, and_7, and_3, and_1]
      rw [alu_cp_f40]
      first
        | rw [rb_mod]
        | rw [Nat.mod_eq_of_lt (by assumption)]


/-- C10: with IFF1 = 1 and IM = 0, a z80_interrupt whose data byte is not
an RST opcode ((data & 0xC7) different from 0xC7) clears halted, IFF1 and
IFF2 and increments the low 7 bits of R, but leaves PC, SP, all other
registers, ei_delay, clocks and memory unchanged: no push, no jump. -/
theorem z80_interrupt_im0_non_rst_frame (m : Mach) (data : Nat)
    (h1 : m.iff1 = 1) (h0 : m.im = 0) (hd : data < 256)
    (hns : data &&& 0xC7 ≠ 0xC7) :
    z80_interrupt m data =
      { m with halted := 0, iff1 := 0, iff2 := 0,
               r := (m.r &&& 0x80) ||| ((m.r + 1) &&& 0x7F) } := by
  have hdm : data % 256 = data := Nat.mod_eq_of_lt hd
  have hne : data ≠ 0xFF := by
    intro e
    apply hns
    rw [e]
    rfl
  simp only [z80_interrupt, incR, hdm, h1, h0, hne, hns, if_false]
  norm_num


theorem cp_sets_f3_f5_witness :
    (z80_step ioZero mCP).1.f &&& 0x28 = 0x28 := by
  have h := (cp_sets_f3_f5_from_operand ioZero mCP
    (by unfold Wf; decide) (by decide)).1 (by decide)
  exact h.trans (by decide)

theorem z80_interrupt_im0_non_rst_frame_witness :
    z80_interrupt mIM0 0x12 =
      { mIM0 with halted := 0, iff1 := 0, iff2 := 0, r := 0x86 } := by
  have h := z80_interrupt_im0_non_rst_frame mIM0 0x12 (by decide) (by decide)
    (by decide) (by decide)
  rw [h]
  rfl


theorem eiPrelude_id (m : Mach) (hd : m.eiDelay = 0) : eiPrelude m = m := by
  simp [eiPrelude, hd]

/-- C9 (amended): provided ei_delay is inactive when the EI step begins,
executing EI does not change IFF1 or IFF2 during that z80_step call (EI
only sets ei_delay to 1); and — absent any intervening z80_interrupt or
z80_nmi — the next z80_step's prelude (eiPrelude, run before the
following instruction is fetched and executed) clears the delay and sets
both IFF1 and IFF2 to 1. -/
theorem ei_step_defers_iff_update (io : Mem) (m : Mach)
    (hh : m.halted = 0) (hd : m.eiDelay = 0) (hop : rb m.mem m.pc = 0xFB) :
    (z80_step io m).1.iff1 = m.iff1 ∧ (z80_step io m).1.iff2 = m.iff2 ∧
    (z80_step io m).1.eiDelay = 1 ∧
    eiPrelude (z80_step io m).1 =
      { (z80_step io m).1 with eiDelay := 0, iff1 := 1, iff2 := 1 } := by
  have h0 : eiPrelude m = m := eiPrelude_id m hd
  simp only [z80_step, addClk, h0, hh, exec_main, exec_main_x3,
    exec_main_x3z3, fetch, incR, hop, aluDispatch]
  norm_num [shr6_div, shr3_div, shr4_div, and_7, and_3, and_1]
  simp [eiPrelude]

theorem ei_step_defers_iff_update_witness :
    (z80_step ioZero mEIdis).1.iff1 = 0 ∧
    (z80_step ioZero mEIdis).1.eiDelay = 1 ∧
    eiPrelude (z80_step ioZero mEIdis).1 =
      { (z80_step ioZero mEIdis).1 with eiDelay := 0, iff1 := 1,
                                        iff2 := 1 } := by
  have h := ei_step_defers_iff_update ioZero mEIdis (by decide) (by decide)
    (by decide)
  exact ⟨h.1, h.2.2.1, h.2.2.2⟩


set_option maxHeartbeats 6400000 in
/-- C3: for every CPU state executing a repeating block instruction
(LDIR/LDDR, CPIR/CPDR, INIR/INDR, OTIR/OTDR): if more work remains
(BC not 0 after the decrement for LDIR/LDDR; additionally comparison
result not 0 for CPIR/CPDR; B not 0 after the decrement for the I/O
forms), the step leaves PC back on the instruction (decremented by 2
from past-the-instruction) and returns 21 T-states; otherwise PC points
past the instruction and the step returns 16 T-states. -/
theorem repeat_block_pc_tstates (io : Mem) (m : Mach) (op2 : Nat)
    (hh : m.halted = 0) (hpc : m.pc < 65536)
    (hed : rb m.mem m.pc = 0xED)
    (hop : rb m.mem ((m.pc + 1) % 65536) = op2)
    (hrep : op2 = 0xB0 ∨ op2 = 0xB8 ∨ op2 = 0xB1 ∨ op2 = 0xB9 ∨
            op2 = 0xB2 ∨ op2 = 0xBA ∨ op2 = 0xB3 ∨ op2 = 0xBB) :
    (repeatMore m op2 = true →
        (z80_step io m).1.pc = m.pc ∧ (z80_step io m).2 = 21) ∧
    (repeatMore m op2 = false →
        (z80_step io m).1.pc = (m.pc + 2) % 65536 ∧ (z80_step io m).2 = 16) := by
  have h1 : (eiPrelude m).halted = 0 := by rw [eiPrelude_halted, hh]
  rcases hrep with rfl | rfl | rfl | rfl | rfl | rfl | rfl | rfl <;>
    (simp only [repeatMore, getBC, getHL, z80_step, addClk, h1, exec_ed,
       exec_ed_block, fetch, incR, op_ldir, op_ldi, op_lddr, op_ldd,
       op_cpir, op_cpi, op_cpdr, op_cpd, op_inir, op_ini, op_indr, op_ind,
       op_otir, op_outi, op_otdr, op_outd, alu_dec8, wb, setHL, setDE,
       setBC, getDE, eiPrelude_mem, eiPrelude_pc, eiPrelude_b, eiPrelude_c,
       eiPrelude_a, eiPrelude_d, eiPrelude_e, eiPrelude_h, eiPrelude_l,
       hed, hop]
     norm_num [shr6_div, shr3_div, shr4_div, and_7, and_3, and_1, -and_imp]
     first
       | rw [pair_recombine _ (by omega)]
       | skip
     constructor <;> intro hcond <;>
       (first
          | rw [if_neg hcond]
          | rw [if_pos hcond]
          | rw [if_neg (fun hAB => hAB.2 (hcond hAB.1))]
        try dsimp only
        exact ⟨by omega, rfl⟩))

theorem repeat_block_pc_tstates_witness :
    (z80_step ioZero mLDIR).1.pc = mLDIR.pc ∧
    (z80_step ioZero mLDIR).2 = 21 := by
  have h := (repeat_block_pc_tstates ioZero mLDIR 0xB0 (by decide) (by decide)
    (by decide) (by decide) (Or.inl rfl)).1 (by decide)
  exact h


/- ── C7: PUSH rp; POP rp round trip ───────────────────────────────── -/

theorem rb_mupd_self (mem : Mem) (a v : Nat) :
    rb (mupd mem a v) a = v % 256 := by
  simp [rb, mupd]

theorem rb_mupd_other (mem : Mem) (a b v : Nat) (h : b % 65536 ≠ a % 65536) :
    rb (mupd mem a v) b = rb mem b := by
  simp [rb, mupd, h]

set_option maxHeartbeats 6400000 in
theorem push_step_facts (io : Mem) (m : Mach) (p : Nat) (hp : p < 4)
    (hsp : m.sp < 65536) (hh : m.halted = 0)
    (hpush : rb m.mem m.pc = 0xC5 + p * 16) :
    (z80_step io m).1.halted = 0 ∧
    (z80_step io m).1.pc = (m.pc + 1) % 65536 ∧
    (z80_step io m).1.sp = (m.sp + 65534) % 65536 ∧
    rb (z80_step io m).1.mem ((m.sp + 65534) % 65536) = get_rp2 m p % 256 ∧
    rb (z80_step io m).1.mem ((m.sp + 65534) % 65536 + 1)
      = (get_rp2 m p >>> 8) % 256 := by
  have h1 : (eiPrelude m).halted = 0 := by rw [eiPrelude_halted, hh]
  interval_cases p <;>
    (simp only [z80_step, addClk, h1, exec_main, exec_main_x3, fetch, incR,
       push, ww, wb, get_rp2, getBC, getDE, getHL, getAF, eiPrelude_mem,
       eiPrelude_pc, eiPrelude_sp, eiPrelude_a, eiPrelude_f, eiPrelude_b,
       eiPrelude_c, eiPrelude_d, eiPrelude_e, eiPrelude_h, eiPrelude_l,
       hpush]
     norm_num [shr6_div, shr3_div, shr4_div, and_7, and_3, and_1]
     constructor
     · rw [rb_mupd_other _ _ _ _ (by omega), rb_mupd_self]
       omega
     · rw [rb_mupd_self]
       omega)

theorem pop_recombine (X : Nat) :
    ((((X % 256 ||| (X >>> 8 % 256) <<< 8) % 65536) >>> 8 % 256) <<< 8) % 65536
      ||| ((X % 256 ||| (X >>> 8 % 256) <<< 8) % 65536) &&& 255 = X % 65536 := by
  have hA : X % 256 ||| (X >>> 8 % 256) <<< 8 = X % 65536 := by
    rw [Nat.lor_comm,
      shl_or_eq_add _ _ 8 (by simpa using Nat.mod_lt X (show 0 < 256 by norm_num)),
      shl8_mul, shr8_div]
    omega
  rw [hA]
  have hB : X % 65536 % 65536 = X % 65536 := by omega
  rw [hB]
  exact pair_recombine _ (by omega)

theorem or_lt_65536 (x y : Nat) (hx : x < 65536) (hy : y < 65536) :
    x ||| y < 65536 := by
  have h := @Nat.or_lt_two_pow x y 16 (by omega) (by omega)
  omega

theorem get_rp2_lt (m : Mach) (p : Nat) (hw : Wf m) : get_rp2 m p < 65536 := by
  obtain ⟨ha, hf, hb, hc, hd, he, hh8, hl8, hrest⟩ := hw
  simp only [get_rp2, getBC, getDE, getHL, getAF]
  split_ifs <;>
    first
      | exact or_lt_65536 _ _ (Nat.mod_lt _ (by norm_num)) (by omega)
      | omega

set_option maxHeartbeats 6400000 in
/-- C7: with the plain 64 KiB byte-array memory callbacks, executing PUSH rp
followed by POP rp (rp one of BC, DE, HL, AF selected by p < 4, opcodes
0xC5 + 16p and 0xC1 + 16p) from any well-formed, non-halted state leaves the
register pair and SP equal to their values before the two instructions. -/
theorem push_pop_identity (io : Mem) (m : Mach) (p : Nat) (hp : p < 4)
    (hw : Wf m) (hh : m.halted = 0)
    (hpush : rb m.mem m.pc = 0xC5 + p * 16)
    (hpop : rb (z80_step io m).1.mem ((m.pc + 1) % 65536) = 0xC1 + p * 16) :
    get_rp2 (z80_step io (z80_step io m).1).1 p = get_rp2 m p ∧
    (z80_step io (z80_step io m).1).1.sp = m.sp := by
  have hlt : get_rp2 m p < 65536 := get_rp2_lt m p hw
  have hsp : m.sp < 65536 := hw.2.2.2.2.2.2.2.2.2.2.2.2.2.2.2.2.2.2.1
  have F := push_step_facts io m p hp hsp hh hpush
  generalize hgen : (z80_step io m).1 = s1 at F hpop ⊢
  obtain ⟨F1, F2, F3, F4, F5⟩ := F
  have h1 : (eiPrelude s1).halted = 0 := by rw [eiPrelude_halted, F1]
  have hfetch2 : rb s1.mem s1.pc = 0xC1 + p * 16 := by rw [F2]; exact hpop
  have ha1 : (s1.sp + 2 + 65534) % 65536 = (m.sp + 65534) % 65536 := by
    rw [F3]; omega
  interval_cases p <;>
    (simp only [z80_step, addClk, h1, exec_main, exec_main_x3, fetch, incR,
       pop, rw, set_rp2, setBC, setDE, setHL, setAF, get_rp2, getBC, getDE,
       getHL, getAF, eiPrelude_mem, eiPrelude_pc, eiPrelude_sp, hfetch2]
     norm_num [shr6_div, shr3_div, shr4_div, and_7, and_3, and_1] at hlt ⊢
     rw [ha1, F4, F5]
     refine ⟨?_, ?_⟩
     · rw [pop_recombine, Nat.mod_eq_of_lt hlt]
       norm_num [get_rp2, getBC, getDE, getHL, getAF]
     · rw [F3]; omega)

theorem push_pop_identity_witness :
    (0 : Nat) < 4 ∧ Wf mPP ∧ mPP.halted = 0 ∧
    rb mPP.mem mPP.pc = 0xC5 + 0 * 16 ∧
    rb (z80_step ioZero mPP).1.mem ((mPP.pc + 1) % 65536) = 0xC1 + 0 * 16 ∧
    (get_rp2 (z80_step ioZero (z80_step ioZero mPP).1).1 0 = get_rp2 mPP 0 ∧
     (z80_step ioZero (z80_step ioZero mPP).1).1.sp = mPP.sp) :=
  ⟨by decide, by unfold Wf; decide, by decide, by decide, by decide,
   push_pop_identity ioZero mPP 0 (by decide) (by unfold Wf; decide) (by decide)
     (by decide) (by decide)⟩


/- ── C4: R bit 7 preservation ─────────────────────────────────────── -/

theorem ite_r {c : Prop} [Decidable c] (a b : Mach) :
    (ite c a b).r = ite c a.r b.r := apply_ite _ c a b

theorem addClk_r (pr : Mach × Nat) : (addClk pr).1.r = pr.1.r := rfl

theorem incR_r7 (x : Mach) : (incR x).r &&& 128 = x.r &&& 128 := by
  simp only [incR]
  exact incR_or_bit7 x.r

theorem rb_congr (mem : Mem) (aa bb : Nat) (h : aa % 65536 = bb % 65536) :
    rb mem aa = rb mem bb := by simp [rb, h]

theorem ddfd_unprefixed_r7 (m : Mach) :
    (ddfd_unprefixed m).1.r &&& 128 = m.r &&& 128 := by
  simp only [ddfd_unprefixed, incR]
  rw [decR_or_bit7, incR_or_bit7]

theorem op_ldi_r (m : Mach) : (op_ldi m).1.r = m.r := by
  simp only [op_ldi, wb, setHL, setDE, setBC]

theorem op_ldd_r (m : Mach) : (op_ldd m).1.r = m.r := by
  simp only [op_ldd, wb, setHL, setDE, setBC]

theorem op_cpi_r (m : Mach) : (op_cpi m).1.r = m.r := by
  simp only [op_cpi, setHL, setBC]

theorem op_cpd_r (m : Mach) : (op_cpd m).1.r = m.r := by
  simp only [op_cpd, setHL, setBC]

theorem op_outi_r (m : Mach) : (op_outi m).1.r = m.r := by
  simp only [op_outi, setHL, alu_dec8]

theorem op_outd_r (m : Mach) : (op_outd m).1.r = m.r := by
  simp only [op_outd, setHL, alu_dec8]

theorem op_ini_r (io : Mem) (m : Mach) : (op_ini io m).1.r = m.r := by
  simp only [op_ini, wb, setHL, alu_dec8]

theorem op_ind_r (io : Mem) (m : Mach) : (op_ind io m).1.r = m.r := by
  simp only [op_ind, wb, setHL, alu_dec8]

theorem op_ldir_r (m : Mach) : (op_ldir m).1.r = m.r := by
  simp only [op_ldir, ite_fst, ite_r, op_ldi_r, ite_self]

theorem op_lddr_r (m : Mach) : (op_lddr m).1.r = m.r := by
  simp only [op_lddr, ite_fst, ite_r, op_ldd_r, ite_self]

theorem op_cpir_r (m : Mach) : (op_cpir m).1.r = m.r := by
  simp only [op_cpir, ite_fst, ite_r, op_cpi_r, ite_self]

theorem op_cpdr_r (m : Mach) : (op_cpdr m).1.r = m.r := by
  simp only [op_cpdr, ite_fst, ite_r, op_cpd_r, ite_self]

theorem op_otir_r (m : Mach) : (op_otir m).1.r = m.r := by
  simp only [op_otir, ite_fst, ite_r, op_outi_r, ite_self]

theorem op_otdr_r (m : Mach) : (op_otdr m).1.r = m.r := by
  simp only [op_otdr, ite_fst, ite_r, op_outd_r, ite_self]

theorem op_inir_r (io : Mem) (m : Mach) : (op_inir io m).1.r = m.r := by
  simp only [op_inir, ite_fst, ite_r, op_ini_r, ite_self]

theorem op_indr_r (io : Mem) (m : Mach) : (op_indr io m).1.r = m.r := by
  simp only [op_indr, ite_fst, ite_r, op_ind_r, ite_self]

theorem ld_a_ir_flags_r (m : Mach) (v : Nat) :
    (ld_a_ir_flags m v).r = m.r := by
  simp only [ld_a_ir_flags]

theorem exec_ed_block_r (io : Mem) (m : Mach) (y z : Nat) :
    (exec_ed_block io m y z).1.r = m.r := by
  simp only [exec_ed_block, ite_fst, ite_r, op_ldi_r, op_ldd_r, op_ldir_r,
    op_lddr_r, op_cpi_r, op_cpd_r, op_cpir_r, op_cpdr_r, op_ini_r, op_ind_r,
    op_inir_r, op_indr_r, op_outi_r, op_outd_r, op_otir_r, op_otdr_r,
    ite_self]

theorem exec_ed_x1z7_r (m : Mach) (y : Nat) (hy : y ≠ 1) :
    (exec_ed_x1z7 m y).1.r = m.r := by
  simp only [exec_ed_x1z7, ite_fst, ite_r, ld_a_ir_flags_r, wb_r, ite_self]
  split_ifs <;> first | rfl | exact absurd ‹y = 1› hy

theorem exec_ed_x1_r (io : Mem) (m : Mach) (op : Nat)
    (h : ¬(op &&& 7 = 7 ∧ (op >>> 3) &&& 7 = 1)) :
    (exec_ed_x1 io m op).1.r = m.r := by
  simp only [exec_ed_x1, ite_fst, ite_r, set_reg_r, set_rp_r, ww_r,
    pop_r, fetch16_r, alu_sub8_r, alu_adc16_r, alu_sbc16_r, ite_self]
  split_ifs <;>
    first
      | rfl
      | (apply exec_ed_x1z7_r
         intro hy
         apply h
         refine ⟨?_, hy⟩
         simp only [and_7] at *
         omega)

theorem exec_ed_rb7 (io : Mem) (m0 : Mach) (h : rb m0.mem m0.pc ≠ 0x4F) :
    (exec_ed io m0).1.r &&& 128 = m0.r &&& 128 := by
  simp only [exec_ed, ite_fst]
  split_ifs with hx1 hx2
  · have hh : ¬((fetch m0).2 &&& 7 = 7 ∧ (((fetch m0).2 >>> 3) &&& 7) = 1) := by
      intro hc
      apply h
      have hv : (fetch m0).2 = rb m0.mem m0.pc := rfl
      obtain ⟨hz, hy⟩ := hc
      rw [hv, and_7] at hz
      rw [hv, shr3_div, and_7] at hy
      rw [hv, shr6_div] at hx1
      omega
    rw [exec_ed_x1_r _ _ _ hh, incR_r7, fetch_r]
  · rw [exec_ed_block_r, incR_r7, fetch_r]
  · rw [incR_r7, fetch_r]

theorem exec_cb_rb7 (m0 : Mach) :
    (exec_cb m0).1.r &&& 128 = m0.r &&& 128 := by
  have hr : (exec_cb m0).1.r = (incR (fetch m0).1).r := by
    simp only [exec_cb, ite_fst, ite_r, set_reg_r, op_bit_r, rot_rlc_r,
      rot_rrc_r, rot_rl_r, rot_rr_r, rot_sla_r, rot_sra_r, rot_sll_r,
      rot_srl_r, ite_self]
  rw [hr, incR_r7, fetch_r]

theorem exec_ddfdcb_r (m0 : Mach) (x : Nat) :
    (exec_ddfdcb m0 x).1.r = m0.r := by
  simp only [exec_ddfdcb, ite_fst, ite_r, set_reg_r, wb_r, op_bit_idx_r,
    rot_rlc_r, rot_rrc_r, rot_rl_r, rot_rr_r, rot_sla_r, rot_sra_r,
    rot_sll_r, rot_srl_r, fetch_r, ite_self]

theorem ite_and128 {c : Prop} [Decidable c] (a b : Nat) :
    (ite c a b) &&& 128 = ite c (a &&& 128) (b &&& 128) :=
  apply_ite (fun t => t &&& 128) c a b

set_option maxHeartbeats 1600000 in
theorem exec_ddfd_x0_rb7 (m : Mach) (op x : Nat) (u : Bool) :
    (exec_ddfd_x0 m op x u).1.r &&& 128 = m.r &&& 128 := by
  simp only [exec_ddfd_x0, ite_fst, ite_r, ite_and128, ddfd_unprefixed_r7,
    stIxiy_r, wb_r, ww_r, fetch_r, fetch16_r, alu_add16_r, alu_inc8_r,
    alu_dec8_r, ite_self]

set_option maxHeartbeats 1600000 in
theorem exec_ddfd_x3_rb7 (m : Mach) (op x : Nat) (u : Bool) :
    (exec_ddfd_x3 m op x u).1.r &&& 128 = m.r &&& 128 := by
  simp only [exec_ddfd_x3, ite_fst, ite_r, ite_and128, ddfd_unprefixed_r7,
    stIxiy_r, ww_r, push_r, pop_r, ite_self]

set_option maxHeartbeats 1600000 in
theorem exec_ddfd_rb7 (io : Mem) (m0 : Mach) (u : Bool)
    (h : ¬(rb m0.mem m0.pc = 0xED ∧ rb m0.mem ((m0.pc + 1) % 65536) = 0x4F)) :
    (exec_ddfd io m0 u).1.r &&& 128 = m0.r &&& 128 := by
  simp only [exec_ddfd, ite_fst, ite_r, ite_and128, exec_ddfdcb_r,
    exec_ddfd_x0_rb7, exec_ddfd_x3_rb7, ddfd_unprefixed_r7, stIxiy_r,
    set_reg_r, set_reg_idx_r, wb_r, aluDispatch_r, incR_r7, fetch_r,
    ite_self]
  split_ifs <;>
    first
      | rfl
      | (rw [exec_ed_rb7 _ _ (fun h4 => h ⟨‹(fetch m0).2 = 0xED›, h4⟩),
          incR_r7, fetch_r])

theorem exec_main_x0z7_r (m : Mach) (y : Nat) :
    (exec_main_x0z7 m y).1.r = m.r := by
  simp only [exec_main_x0z7, ite_fst, ite_r, ite_self]

theorem exec_main_x0_r (m : Mach) (op : Nat) :
    (exec_main_x0 m op).1.r = m.r := by
  simp only [exec_main_x0, ite_fst, ite_r, exec_main_x0z7_r,
    set_reg_r, set_rp_r, setHL_r, wb_r, ww_r, fetch_r, fetch16_r,
    alu_add16_r, alu_inc8_r, alu_dec8_r, ite_self]

theorem exec_main_x3z3_r (io : Mem) (m : Mach) (y : Nat) :
    (exec_main_x3z3 io m y).1.r = m.r := by
  simp only [exec_main_x3z3, ite_fst, ite_r, setHL_r, ww_r,
    fetch_r, fetch16_r, ite_self]

theorem exec_main_x3_r (io : Mem) (m : Mach) (op : Nat) :
    (exec_main_x3 io m op).1.r = m.r := by
  simp only [exec_main_x3, ite_fst, ite_r, exec_main_x3z3_r,
    set_rp2_r, push_r, pop_r, fetch_r, fetch16_r,
    aluDispatch_r, ite_self]

theorem exec_main_r (io : Mem) (m : Mach) (op : Nat) :
    (exec_main io m op).1.r = m.r := by
  simp only [exec_main, ite_fst, ite_r, exec_main_x0_r,
    exec_main_x3_r, set_reg_r, aluDispatch_r, ite_self]

set_option maxHeartbeats 1600000 in
/-- C4 (amended): bit 7 of the R register is preserved by every z80_step
call that does not execute LD R,A -- that is, whenever the bytes at PC are
neither ED 4F nor a DD/FD prefix followed by ED 4F.  (The unamended claim
is false: LD R,A copies all eight bits of A into R.) -/
theorem step_preserves_r_bit7 (io : Mem) (m0 : Mach)
    (h : ¬((rb m0.mem m0.pc = 0xED ∧ rb m0.mem ((m0.pc + 1) % 65536) = 0x4F) ∨
          ((rb m0.mem m0.pc = 0xDD ∨ rb m0.mem m0.pc = 0xFD) ∧
            rb m0.mem ((m0.pc + 1) % 65536) = 0xED ∧
            rb m0.mem ((m0.pc + 2) % 65536) = 0x4F))) :
    (z80_step io m0).1.r &&& 128 = m0.r &&& 128 := by
  have hpm : (eiPrelude m0).mem = m0.mem := eiPrelude_mem m0
  have hpp : (eiPrelude m0).pc = m0.pc := eiPrelude_pc m0
  simp only [z80_step, ite_fst, ite_r, addClk_r]
  split_ifs with hh hcb hed hdd hfd
  · rw [incR_r7, eiPrelude_r]
  · rw [exec_cb_rb7, incR_r7, fetch_r, eiPrelude_r]
  · have hED1 : rb (eiPrelude m0).mem (eiPrelude m0).pc = 0xED := hed
    rw [hpm, hpp] at hED1
    have hne : rb (incR (fetch (eiPrelude m0)).1).mem
        (incR (fetch (eiPrelude m0)).1).pc ≠ 0x4F := by
      intro h4
      apply h
      left
      refine ⟨hED1, ?_⟩
      have h4b : rb (eiPrelude m0).mem (((eiPrelude m0).pc + 1) % 65536) = 0x4F := h4
      rw [hpm, hpp] at h4b
      exact h4b
    rw [exec_ed_rb7 _ _ hne, incR_r7, fetch_r, eiPrelude_r]
  · have hDD1 : rb (eiPrelude m0).mem (eiPrelude m0).pc = 0xDD := hdd
    rw [hpm, hpp] at hDD1
    have hX : ¬(rb (incR (fetch (eiPrelude m0)).1).mem
          (incR (fetch (eiPrelude m0)).1).pc = 0xED ∧
        rb (incR (fetch (eiPrelude m0)).1).mem
          (((incR (fetch (eiPrelude m0)).1).pc + 1) % 65536) = 0x4F) := by
      intro hc
      apply h
      right
      have hc1 : rb (eiPrelude m0).mem (((eiPrelude m0).pc + 1) % 65536) = 0xED := hc.1
      have hc2 : rb (eiPrelude m0).mem
          ((((eiPrelude m0).pc + 1) % 65536 + 1) % 65536) = 0x4F := hc.2
      rw [hpm, hpp] at hc1 hc2
      refine ⟨Or.inl hDD1, hc1, ?_⟩
      rw [rb_congr m0.mem ((m0.pc + 2) % 65536) (((m0.pc + 1) % 65536 + 1) % 65536)
        (by omega)]
      exact hc2
    rw [exec_ddfd_rb7 _ _ _ hX, incR_r7, fetch_r, eiPrelude_r]
  · have hFD1 : rb (eiPrelude m0).mem (eiPrelude m0).pc = 0xFD := hfd
    rw [hpm, hpp] at hFD1
    have hX : ¬(rb (incR (fetch (eiPrelude m0)).1).mem
          (incR (fetch (eiPrelude m0)).1).pc = 0xED ∧
        rb (incR (fetch (eiPrelude m0)).1).mem
          (((incR (fetch (eiPrelude m0)).1).pc + 1) % 65536) = 0x4F) := by
      intro hc
      apply h
      right
      have hc1 : rb (eiPrelude m0).mem (((eiPrelude m0).pc + 1) % 65536) = 0xED := hc.1
      have hc2 : rb (eiPrelude m0).mem
          ((((eiPrelude m0).pc + 1) % 65536 + 1) % 65536) = 0x4F := hc.2
      rw [hpm, hpp] at hc1 hc2
      refine ⟨Or.inr hFD1, hc1, ?_⟩
      rw [rb_congr m0.mem ((m0.pc + 2) % 65536) (((m0.pc + 1) % 65536 + 1) % 65536)
        (by omega)]
      exact hc2
    rw [exec_ddfd_rb7 _ _ _ hX, incR_r7, fetch_r, eiPrelude_r]
  · rw [exec_main_r, incR_r7, fetch_r, eiPrelude_r]

theorem step_preserves_r_bit7_witness :
    (¬((rb mCP.mem mCP.pc = 0xED ∧ rb mCP.mem ((mCP.pc + 1) % 65536) = 0x4F) ∨
      ((rb mCP.mem mCP.pc = 0xDD ∨ rb mCP.mem mCP.pc = 0xFD) ∧
        rb mCP.mem ((mCP.pc + 1) % 65536) = 0xED ∧
        rb mCP.mem ((mCP.pc + 2) % 65536) = 0x4F))) ∧
    (z80_step ioZero mCP).1.r &&& 128 = mCP.r &&& 128 :=
  ⟨by decide, step_preserves_r_bit7 ioZero mCP (by decide)⟩


/- ── C8: serial-port auto-detection ───────────────────────────────── -/

theorem bestLoop_eq (ic oc : Nat → Nat) :
    bestLoop ic oc = (List.range 255).foldl (bestStep ic oc) (0x80, 0) := rfl

theorem scanCounts_fst (mem : Mem) (n j : Nat) :
    (scanCounts mem n).1 j =
      ((List.range n).filter
        (fun i => mem i % 256 == 0xDB && mem (i + 1) % 256 == j)).length := by
  induction n with
  | zero => rfl
  | succ n ih =>
      rw [List.range_succ, List.filter_append, List.length_append]
      show (scanCounts mem (n + 1)).1 j = _
      simp only [scanCounts]
      split_ifs with h1 h2
      · simp only [bump]
        have hsing : List.filter (fun i => mem i % 256 == 0xDB && mem (i + 1) % 256 == j) [n]
            = if j = mem (n + 1) % 256 then [n] else [] := by
          by_cases hj : j = mem (n + 1) % 256
          · simp [List.filter, h1, hj]
          · have hb : (mem (n + 1) % 256 == j) = false :=
              beq_eq_false_iff_ne.mpr (fun he => hj he.symm)
            simp [List.filter, h1, hb, hj]
        rw [hsing, ih]
        by_cases hj : j = mem (n + 1) % 256
        · rw [if_pos hj, if_pos hj]
          simp
        · rw [if_neg hj, if_neg hj]
          simp
      · have hb : (mem n % 256 == 0xDB) = false := by rw [h2]; rfl
        rw [ih]
        simp [List.filter, hb]
      · have hb : (mem n % 256 == 0xDB) = false := beq_eq_false_iff_ne.mpr h1
        rw [ih]
        simp [List.filter, hb]

theorem scanCounts_snd (mem : Mem) (n j : Nat) :
    (scanCounts mem n).2 j =
      ((List.range n).filter
        (fun i => mem i % 256 == 0xD3 && mem (i + 1) % 256 == j)).length := by
  induction n with
  | zero => rfl
  | succ n ih =>
      rw [List.range_succ, List.filter_append, List.length_append]
      show (scanCounts mem (n + 1)).2 j = _
      simp only [scanCounts]
      split_ifs with h1 h2
      · have hb : (mem n % 256 == 0xD3) = false := by rw [h1]; rfl
        rw [ih]
        simp [List.filter, hb]
      · simp only [bump]
        have hsing : List.filter (fun i => mem i % 256 == 0xD3 && mem (i + 1) % 256 == j) [n]
            = if j = mem (n + 1) % 256 then [n] else [] := by
          by_cases hj : j = mem (n + 1) % 256
          · simp [List.filter, h2, hj]
          · have hb : (mem (n + 1) % 256 == j) = false :=
              beq_eq_false_iff_ne.mpr (fun he => hj he.symm)
            simp [List.filter, h2, hb, hj]
        rw [hsing, ih]
        by_cases hj : j = mem (n + 1) % 256
        · rw [if_pos hj, if_pos hj]
          simp
        · rw [if_neg hj, if_neg hj]
          simp
      · have hb : (mem n % 256 == 0xD3) = false := beq_eq_false_iff_ne.mpr h2
        rw [ih]
        simp [List.filter, hb]

theorem bestLoop_fold (ic oc : Nat → Nat) (l : List Nat) (acc : Nat × Nat)
    (hl : ∀ p ∈ l, p < 255)
    (hP : (acc.2 = 0 ∧ acc.1 = 0x80) ∨
          (0 < acc.2 ∧
            (0 < ic acc.1 + ic (acc.1 + 1) ∧ 0 < oc acc.1 + oc (acc.1 + 1)) ∧
            acc.2 = ic acc.1 + ic (acc.1 + 1) + (oc acc.1 + oc (acc.1 + 1)) ∧
            acc.1 < 255)) :
    ((((l.foldl (bestStep ic oc) acc).2 = 0 ∧
        (l.foldl (bestStep ic oc) acc).1 = 0x80) ∨
      (0 < (l.foldl (bestStep ic oc) acc).2 ∧
        (0 < ic (l.foldl (bestStep ic oc) acc).1 +
              ic ((l.foldl (bestStep ic oc) acc).1 + 1) ∧
          0 < oc (l.foldl (bestStep ic oc) acc).1 +
              oc ((l.foldl (bestStep ic oc) acc).1 + 1)) ∧
        (l.foldl (bestStep ic oc) acc).2 =
          ic (l.foldl (bestStep ic oc) acc).1 +
            ic ((l.foldl (bestStep ic oc) acc).1 + 1) +
          (oc (l.foldl (bestStep ic oc) acc).1 +
            oc ((l.foldl (bestStep ic oc) acc).1 + 1)) ∧
        (l.foldl (bestStep ic oc) acc).1 < 255)) ∧
    acc.2 ≤ (l.foldl (bestStep ic oc) acc).2 ∧
    (∀ p ∈ l, 0 < ic p + ic (p + 1) → 0 < oc p + oc (p + 1) →
      ic p + ic (p + 1) + (oc p + oc (p + 1)) ≤
        (l.foldl (bestStep ic oc) acc).2)) := by
  induction l generalizing acc with
  | nil =>
      refine ⟨hP, le_refl _, ?_⟩
      intro p hp
      exact absurd hp (List.not_mem_nil p)
  | cons q l ih =>
      have hq : q < 255 := hl q (List.mem_cons_self q l)
      have hl2 : ∀ p ∈ l, p < 255 := fun p hp => hl p (List.mem_cons_of_mem q hp)
      rw [List.foldl_cons]
      have hstep2 : acc.2 ≤ (bestStep ic oc acc q).2 := by
        simp only [bestStep]
        split_ifs <;> simp <;> omega
      have hstepP : ((bestStep ic oc acc q).2 = 0 ∧ (bestStep ic oc acc q).1 = 0x80) ∨
          (0 < (bestStep ic oc acc q).2 ∧
            (0 < ic (bestStep ic oc acc q).1 + ic ((bestStep ic oc acc q).1 + 1) ∧
              0 < oc (bestStep ic oc acc q).1 + oc ((bestStep ic oc acc q).1 + 1)) ∧
            (bestStep ic oc acc q).2 =
              ic (bestStep ic oc acc q).1 + ic ((bestStep ic oc acc q).1 + 1) +
                (oc (bestStep ic oc acc q).1 + oc ((bestStep ic oc acc q).1 + 1)) ∧
            (bestStep ic oc acc q).1 < 255) := by
        simp only [bestStep]
        split_ifs with hz hgt
        · exact hP
        · right
          push_neg at hz
          refine ⟨by simp; omega, by simp; omega, by simp, hq⟩
        · exact hP
      obtain ⟨hPa, hmono, hdom⟩ := ih (bestStep ic oc acc q) hl2 hstepP
      refine ⟨hPa, le_trans hstep2 hmono, ?_⟩
      intro p hp hin hout
      rcases List.mem_cons.mp hp with rfl | hp2
      · -- p = q: after its own step, score ≤ step result .2 ≤ final
        have : ic p + ic (p + 1) + (oc p + oc (p + 1)) ≤ (bestStep ic oc acc p).2 := by
          simp only [bestStep]
          split_ifs with hz hgt
          · omega
          · simp
          · simp only [not_lt] at hgt
            omega
        exact le_trans this hmono
      · exact hdom p hp2 hin hout

/-- C8: for every loaded ROM image, the in/out counters of
detect_serial_port count exactly the occurrences of opcode byte 0xDB
(IN A,(n)) resp. 0xD3 (OUT (n),A) among the first romSize - 1 bytes,
indexed by the following port byte; the returned port is 0x80 when no
port p < 255 has both in_count[p]+in_count[p+1] > 0 and
out_count[p]+out_count[p+1] > 0, and otherwise is a port p < 255 with both
sums positive whose total in_count[p]+in_count[p+1]+out_count[p]+out_count[p+1]
is maximal among all such ports. -/
theorem detect_serial_port_correct (mem : Mem) (romSize : Nat)
    (ic oc : Nat → Nat) (r : Nat)
    (hic : ic = (scanCounts mem (romSize - 1)).1)
    (hoc : oc = (scanCounts mem (romSize - 1)).2)
    (hr : r = detect_serial_port mem romSize) :
    (∀ j, ic j = ((List.range (romSize - 1)).filter
        (fun i => mem i % 256 == 0xDB && mem (i + 1) % 256 == j)).length) ∧
    (∀ j, oc j = ((List.range (romSize - 1)).filter
        (fun i => mem i % 256 == 0xD3 && mem (i + 1) % 256 == j)).length) ∧
    ((∀ p, p < 255 → ¬(0 < ic p + ic (p + 1) ∧ 0 < oc p + oc (p + 1))) →
      r = 0x80) ∧
    (∀ p, p < 255 → 0 < ic p + ic (p + 1) → 0 < oc p + oc (p + 1) →
      r < 255 ∧ 0 < ic r + ic (r + 1) ∧ 0 < oc r + oc (r + 1) ∧
      ic p + ic (p + 1) + (oc p + oc (p + 1)) ≤
        ic r + ic (r + 1) + (oc r + oc (r + 1))) := by
  subst hic hoc hr
  refine ⟨fun j => scanCounts_fst mem (romSize - 1) j,
    fun j => scanCounts_snd mem (romSize - 1) j, ?_, ?_⟩
  all_goals
    obtain ⟨hPa, hmono, hdom⟩ :=
      bestLoop_fold (scanCounts mem (romSize - 1)).1 (scanCounts mem (romSize - 1)).2
        (List.range 255) (0x80, 0)
        (fun p hp => List.mem_range.mp hp) (Or.inl ⟨rfl, rfl⟩)
  · intro hnone
    simp only [detect_serial_port, bestLoop_eq]
    rcases hPa with ⟨h0, _⟩ | ⟨hpos, hgood, _, hlt⟩
    · rw [h0]
      simp
    · exact absurd ⟨hgood.1, hgood.2⟩ (hnone _ hlt)
  · intro p hp hin hout
    have hscore := hdom p (List.mem_range.mpr hp) hin hout
    rcases hPa with ⟨h0, _⟩ | ⟨hpos, hgood, heq, hlt⟩
    · rw [h0] at hscore
      omega
    · have hre : detect_serial_port mem romSize =
          ((List.range 255).foldl
            (bestStep (scanCounts mem (romSize - 1)).1
              (scanCounts mem (romSize - 1)).2) (0x80, 0)).1 := by
        simp only [detect_serial_port, bestLoop_eq]
        rw [if_pos hpos]
      rw [hre]
      exact ⟨hlt, hgood.1, hgood.2, by omega⟩

theorem detect_serial_port_correct_witness :
    (∀ j, (scanCounts memC8 (4 - 1)).1 j = ((List.range (4 - 1)).filter
        (fun i => memC8 i % 256 == 0xDB && memC8 (i + 1) % 256 == j)).length) ∧
    (∀ j, (scanCounts memC8 (4 - 1)).2 j = ((List.range (4 - 1)).filter
        (fun i => memC8 i % 256 == 0xD3 && memC8 (i + 1) % 256 == j)).length) ∧
    ((∀ p, p < 255 → ¬(0 < (scanCounts memC8 (4 - 1)).1 p + (scanCounts memC8 (4 - 1)).1 (p + 1) ∧
        0 < (scanCounts memC8 (4 - 1)).2 p + (scanCounts memC8 (4 - 1)).2 (p + 1))) →
      detect_serial_port memC8 4 = 0x80) ∧
    (∀ p, p < 255 →
      0 < (scanCounts memC8 (4 - 1)).1 p + (scanCounts memC8 (4 - 1)).1 (p + 1) →
      0 < (scanCounts memC8 (4 - 1)).2 p + (scanCounts memC8 (4 - 1)).2 (p + 1) →
      detect_serial_port memC8 4 < 255 ∧
      0 < (scanCounts memC8 (4 - 1)).1 (detect_serial_port memC8 4) +
          (scanCounts memC8 (4 - 1)).1 (detect_serial_port memC8 4 + 1) ∧
      0 < (scanCounts memC8 (4 - 1)).2 (detect_serial_port memC8 4) +
          (scanCounts memC8 (4 - 1)).2 (detect_serial_port memC8 4 + 1) ∧
      (scanCounts memC8 (4 - 1)).1 p + (scanCounts memC8 (4 - 1)).1 (p + 1) +
          ((scanCounts memC8 (4 - 1)).2 p + (scanCounts memC8 (4 - 1)).2 (p + 1)) ≤
        (scanCounts memC8 (4 - 1)).1 (detect_serial_port memC8 4) +
            (scanCounts memC8 (4 - 1)).1 (detect_serial_port memC8 4 + 1) +
          ((scanCounts memC8 (4 - 1)).2 (detect_serial_port memC8 4) +
            (scanCounts memC8 (4 - 1)).2 (detect_serial_port memC8 4 + 1))) :=
  detect_serial_port_correct memC8 4 _ _ _ rfl rfl rfl


end Z80
